import Mathlib

/-!
# Chipmunk2D: groove joint, ratchet joint and the 2D vector algebra

A shallow embedding of `include/chipmunk/cpVect.h`, `src/cpGrooveJoint.c` and
`src/cpRatchetJoint.c`.

`cpFloat` is modelled by an arbitrary linearly ordered field `α` (exact
arithmetic; instantiate at `ℚ` to evaluate, at `ℝ` for an exact square root).
Rounding, underflow and the absorption of `CPFLOAT_MIN` by a larger length are
floating-point effects that this embedding does not model.
The C code mutates the joint and the two bodies it points to; here a step
takes and returns the triple (joint, body A, body B) explicitly (`cpWorld`),
the two bodies being distinct objects.

Parts of the library that the three files use but that live in headers which
are not among the sources (`chipmunk_types.h`, `chipmunk.h`, `cpTransform.h`,
`chipmunk_private.h`) are either parameters (`cpMath`, `cpPrivate`) or small
definitions marked `Modelled from the spec`.
-/

namespace Chipmunk

/-! ## Data model -/

/-- The 2D vector type `cpVect`. -/
structure cpVect (α : Type) where
  x : α
  y : α
  deriving DecidableEq, Repr

/-- The 2x2 matrix type `cpMat2x2` (row-major `a b / c d`). -/
structure cpMat2x2 (α : Type) where
  a : α
  b : α
  c : α
  d : α
  deriving DecidableEq, Repr

/-- Modelled from the spec: the type `cpTransform` (declared in `chipmunk_types.h`),
the cached rotation/translation transform of a body: the linear part
`(a c / b d)` and the translation `(tx, ty)`. -/
structure cpTransform (α : Type) where
  a : α
  b : α
  c : α
  d : α
  tx : α
  ty : α
  deriving DecidableEq, Repr

/-- The fields of `cpBody` that the two joints read or write: pose `p`, `a`;
motion `v`, `w`; inverse mass and moment; centre of gravity and cached transform. -/
structure cpBody (α : Type) where
  p : cpVect α
  v : cpVect α
  a : α
  w : α
  m_inv : α
  i_inv : α
  cog : cpVect α
  transform : cpTransform α
  deriving DecidableEq, Repr

/-- The tuning fields of the constraint header `cpConstraint` (the two body
pointers are held by `cpWorld`). -/
structure cpConstraint (α : Type) where
  maxForce : α
  errorBias : α
  maxBias : α
  deriving DecidableEq, Repr

/-- The struct `cpGrooveJoint`: geometry `grv_n grv_a grv_b anchorB`, then the
solver state written by `preStep` and `applyImpulse`. -/
structure cpGrooveJoint (α : Type) where
  constraint : cpConstraint α
  grv_n : cpVect α
  grv_a : cpVect α
  grv_b : cpVect α
  anchorB : cpVect α
  grv_tn : cpVect α
  clamp : α
  r1 : cpVect α
  r2 : cpVect α
  k : cpMat2x2 α
  jAcc : cpVect α
  bias : cpVect α
  deriving DecidableEq, Repr

/-- The struct `cpRatchetJoint`. -/
structure cpRatchetJoint (α : Type) where
  constraint : cpConstraint α
  angle : α
  phase : α
  ratchet : α
  iSum : α
  bias : α
  jAcc : α
  deriving DecidableEq, Repr

/-- A joint together with the two bodies `constraint.a` and `constraint.b` it points to. -/
structure cpWorld (J : Type) (α : Type) where
  joint : J
  a : cpBody α
  b : cpBody α
  deriving DecidableEq, Repr

/-- The floating point primitives of `chipmunk_types.h` that have no exact
counterpart in an ordered field, taken as parameters: `cpfsqrt`, `cpfpow` and
the constant `CPFLOAT_MIN`. -/
structure cpMath (α : Type) where
  cpfsqrt : α → α
  cpfpow : α → α → α
  CPFLOAT_MIN : α

/-- The helpers of `chipmunk_private.h` whose bodies are not among the
sources, taken as parameters: the effective-mass tensor `k_tensor(a, b, r1, r2)`
and `relative_velocity(a, b, r1, r2)`. Both only read the bodies. -/
structure cpPrivate (α : Type) where
  k_tensor : cpBody α → cpBody α → cpVect α → cpVect α → cpMat2x2 α
  relative_velocity : cpBody α → cpBody α → cpVect α → cpVect α → cpVect α

/-- The square root is exact on non-negative arguments and `CPFLOAT_MIN` is positive. -/
structure cpMath.Exact {α : Type} [LinearOrderedField α] (M : cpMath α) : Prop where
  sqrt_nonneg : ∀ x, 0 ≤ M.cpfsqrt x
  sqrt_sq : ∀ x, 0 ≤ x → M.cpfsqrt x * M.cpfsqrt x = x
  min_pos : 0 < M.CPFLOAT_MIN

/-- The transform is a rigid motion: its linear part is a rotation. -/
def cpTransform.IsRigid {α : Type} [LinearOrderedField α] (t : cpTransform α) : Prop :=
  t.d = t.a ∧ t.c = -t.b ∧ t.a * t.a + t.b * t.b = 1

section Defs

variable {α : Type} [LinearOrderedField α]

/-! ## `cpVect.h` -/

/-- Constant for the zero vector. -/
def cpvzero : cpVect α := ⟨0, 0⟩

/-- Convenience constructor for cpVect structs. -/
def cpv (x y : α) : cpVect α := ⟨x, y⟩

/-- Check if two vectors are equal. -/
def cpveql (v1 v2 : cpVect α) : Bool := decide (v1.x = v2.x) && decide (v1.y = v2.y)

/-- Add two vectors. -/
def cpvadd (v1 v2 : cpVect α) : cpVect α := cpv (v1.x + v2.x) (v1.y + v2.y)

/-- Subtract two vectors. -/
def cpvsub (v1 v2 : cpVect α) : cpVect α := cpv (v1.x - v2.x) (v1.y - v2.y)

/-- Negate a vector. -/
def cpvneg (v : cpVect α) : cpVect α := cpv (-v.x) (-v.y)

/-- Scalar multiplication. -/
def cpvmult (v : cpVect α) (s : α) : cpVect α := cpv (v.x * s) (v.y * s)

/-- Vector dot product. -/
def cpvdot (v1 v2 : cpVect α) : α := v1.x * v2.x + v1.y * v2.y

/-- The z component of the cross product of two 2D vectors. -/
def cpvcross (v1 v2 : cpVect α) : α := v1.x * v2.y - v1.y * v2.x

/-- Returns a perpendicular vector (90 degree rotation). -/
def cpvperp (v : cpVect α) : cpVect α := cpv (-v.y) v.x

/-- Returns a perpendicular vector (-90 degree rotation). -/
def cpvrperp (v : cpVect α) : cpVect α := cpv v.y (-v.x)

/-- Returns the vector projection of v1 onto v2. -/
def cpvproject (v1 v2 : cpVect α) : cpVect α := cpvmult v2 (cpvdot v1 v2 / cpvdot v2 v2)

/-- Uses complex number multiplication to rotate v1 by v2. -/
def cpvrotate (v1 v2 : cpVect α) : cpVect α :=
  cpv (v1.x * v2.x - v1.y * v2.y) (v1.x * v2.y + v1.y * v2.x)

/-- Inverse of cpvrotate. -/
def cpvunrotate (v1 v2 : cpVect α) : cpVect α :=
  cpv (v1.x * v2.x + v1.y * v2.y) (v1.y * v2.x - v1.x * v2.y)

/-- Returns the squared length of v. -/
def cpvlengthsq (v : cpVect α) : α := cpvdot v v

/-- Returns the length of v. -/
def cpvlength (M : cpMath α) (v : cpVect α) : α := M.cpfsqrt (cpvdot v v)

/-- Linearly interpolate between v1 and v2. -/
def cpvlerp (v1 v2 : cpVect α) (t : α) : cpVect α :=
  cpvadd (cpvmult v1 (1 - t)) (cpvmult v2 t)

/-- Returns a normalized copy of v; `CPFLOAT_MIN` is added to the length to avoid div/0. -/
def cpvnormalize (M : cpMath α) (v : cpVect α) : cpVect α :=
  cpvmult v (1 / (cpvlength M v + M.CPFLOAT_MIN))

/-- Clamp v to length len. -/
def cpvclamp (M : cpMath α) (v : cpVect α) (len : α) : cpVect α :=
  if cpvdot v v > len * len then cpvmult (cpvnormalize M v) len else v

/-- Linearly interpolate between v1 towards v2 by distance d. -/
def cpvlerpconst (M : cpMath α) (v1 v2 : cpVect α) (d : α) : cpVect α :=
  cpvadd v1 (cpvclamp M (cpvsub v2 v1) d)

/-- Returns the distance between v1 and v2. -/
def cpvdist (M : cpMath α) (v1 v2 : cpVect α) : α := cpvlength M (cpvsub v1 v2)

/-- Returns the squared distance between v1 and v2. -/
def cpvdistsq (v1 v2 : cpVect α) : α := cpvlengthsq (cpvsub v1 v2)

/-- Returns true if the distance between v1 and v2 is less than dist. -/
def cpvnear (v1 v2 : cpVect α) (dist : α) : Bool := decide (cpvdistsq v1 v2 < dist * dist)

/-- The constructor `cpMat2x2New`. -/
def cpMat2x2New (a b c d : α) : cpMat2x2 α := ⟨a, b, c, d⟩

/-- Apply the matrix `m` to the vector `v`. -/
def cpMat2x2Transform (m : cpMat2x2 α) (v : cpVect α) : cpVect α :=
  cpv (v.x * m.a + v.y * m.b) (v.x * m.c + v.y * m.d)

/-! ## Helpers from headers that are not among the sources -/

/-- Modelled from the spec: `cpfmax` of `chipmunk.h`, the larger of two numbers. -/
def cpfmax (a b : α) : α := if a > b then a else b

/-- Modelled from the spec: `cpfmin` of `chipmunk.h`, the smaller of two numbers. -/
def cpfmin (a b : α) : α := if a < b then a else b

/-- Modelled from the spec: `cpfabs` of `chipmunk.h`, the absolute value. -/
def cpfabs (f : α) : α := if f < 0 then -f else f

/-- Modelled from the spec: `cpfclamp` of `chipmunk.h`, clamp `f` to be between
`lo` and `hi` (lower bound applied first, then the upper bound). -/
def cpfclamp (f lo hi : α) : α := cpfmin (cpfmax f lo) hi

/-- Modelled from the spec: `cpffloor` of `chipmunk_types.h`, the largest integer
not above `x`, as a number. -/
def cpffloor [FloorRing α] (x : α) : α := ((⌊x⌋ : ℤ) : α)

/-- Modelled from the spec: `bias_coef` of `chipmunk_private.h`, the per-step
correction coefficient `errorRate(errorBias, dt) = 1 - errorBias^dt`. -/
def bias_coef (M : cpMath α) (errorBias dt : α) : α := 1 - M.cpfpow errorBias dt

/-- Modelled from the spec: `cpTransformPoint` of `cpTransform.h`, the transform
applied to a point (linear part and translation). -/
def cpTransformPoint (t : cpTransform α) (p : cpVect α) : cpVect α :=
  cpv (t.a * p.x + t.c * p.y + t.tx) (t.b * p.x + t.d * p.y + t.ty)

/-- Modelled from the spec: `cpTransformVect` of `cpTransform.h`, the transform
applied to a direction (linear part only). -/
def cpTransformVect (t : cpTransform α) (v : cpVect α) : cpVect α :=
  cpv (t.a * v.x + t.c * v.y) (t.b * v.x + t.d * v.y)

/-- Modelled from the spec: `apply_impulse` of `chipmunk_private.h`: the impulse
`j` applied at lever arm `r` changes `v` by `j * m_inv` and `w` by
`i_inv * cross(r, j)`. -/
def apply_impulse (body : cpBody α) (j r : cpVect α) : cpBody α :=
  { body with
    v := cpvadd body.v (cpvmult j body.m_inv)
    w := body.w + body.i_inv * cpvcross r j }

/-- Modelled from the spec: `apply_impulses` of `chipmunk_private.h`: body A
receives `-j` at `r1`, body B receives `j` at `r2`. -/
def apply_impulses (a b : cpBody α) (r1 r2 j : cpVect α) : cpBody α × cpBody α :=
  (apply_impulse a (cpvneg j) r1, apply_impulse b j r2)

/-! ## `cpGrooveJoint.c` -/

namespace cpGrooveJoint

/-- The function `preStep` of `cpGrooveJoint.c`. -/
def preStep (M : cpMath α) (P : cpPrivate α) (s : cpWorld (cpGrooveJoint α) α) (dt : α) :
    cpWorld (cpGrooveJoint α) α :=
  let joint := s.joint
  let a := s.a
  let b := s.b
  -- calculate endpoints in worldspace
  let ta := cpTransformPoint a.transform joint.grv_a
  let tb := cpTransformPoint a.transform joint.grv_b
  -- calculate axis
  let n := cpTransformVect a.transform joint.grv_n
  let d := cpvdot ta n
  let joint := { joint with grv_tn := n }
  let joint := { joint with r2 := cpTransformVect b.transform (cpvsub joint.anchorB b.cog) }
  -- calculate tangential distance along the axis of r2
  let td := cpvcross (cpvadd b.p joint.r2) n
  -- calculate clamping factor and r2
  let joint :=
    if td ≤ cpvcross ta n then
      { joint with clamp := 1, r1 := cpvsub ta a.p }
    else if td ≥ cpvcross tb n then
      { joint with clamp := -1, r1 := cpvsub tb a.p }
    else
      { joint with
        clamp := 0
        r1 := cpvsub (cpvadd (cpvmult (cpvperp n) (-td)) (cpvmult n d)) a.p }
  -- calculate mass tensor
  let joint := { joint with k := P.k_tensor a b joint.r1 joint.r2 }
  -- calculate bias velocity
  let delta := cpvsub (cpvadd b.p joint.r2) (cpvadd a.p joint.r1)
  let joint := { joint with
    bias := cpvclamp M
      (cpvmult delta (-(bias_coef M joint.constraint.errorBias dt) / dt))
      joint.constraint.maxBias }
  { joint := joint, a := a, b := b }

/-- The function `applyCachedImpulse` of `cpGrooveJoint.c`. -/
def applyCachedImpulse (s : cpWorld (cpGrooveJoint α) α) (dt_coef : α) :
    cpWorld (cpGrooveJoint α) α :=
  let joint := s.joint
  let ab := apply_impulses s.a s.b joint.r1 joint.r2 (cpvmult joint.jAcc dt_coef)
  { joint := joint, a := ab.1, b := ab.2 }

/-- The function `grooveConstrain` of `cpGrooveJoint.c`. -/
def grooveConstrain (M : cpMath α) (joint : cpGrooveJoint α) (j : cpVect α) (dt : α) :
    cpVect α :=
  let n := joint.grv_tn
  let jClamp := if joint.clamp * cpvcross j n > 0 then j else cpvproject j n
  cpvclamp M jClamp (joint.constraint.maxForce * dt)

/-- The function `applyImpulse` of `cpGrooveJoint.c`. -/
def applyImpulse (M : cpMath α) (P : cpPrivate α) (s : cpWorld (cpGrooveJoint α) α) (dt : α) :
    cpWorld (cpGrooveJoint α) α :=
  let joint := s.joint
  let a := s.a
  let b := s.b
  let r1 := joint.r1
  let r2 := joint.r2
  -- compute impulse
  let vr := P.relative_velocity a b r1 r2
  let j := cpMat2x2Transform joint.k (cpvsub joint.bias vr)
  let jOld := joint.jAcc
  let joint := { joint with jAcc := grooveConstrain M joint (cpvadd jOld j) dt }
  let j := cpvsub joint.jAcc jOld
  -- apply impulse
  let ab := apply_impulses a b joint.r1 joint.r2 j
  { joint := joint, a := ab.1, b := ab.2 }

/-- The function `getImpulse` of `cpGrooveJoint.c`. -/
def getImpulse (M : cpMath α) (joint : cpGrooveJoint α) : α := cpvlength M joint.jAcc

/-- The function `cpGrooveJointAlloc`: `cpcalloc` returns zeroed memory. -/
def cpGrooveJointAlloc : cpGrooveJoint α where
  constraint := ⟨0, 0, 0⟩
  grv_n := ⟨0, 0⟩
  grv_a := ⟨0, 0⟩
  grv_b := ⟨0, 0⟩
  anchorB := ⟨0, 0⟩
  grv_tn := ⟨0, 0⟩
  clamp := 0
  r1 := ⟨0, 0⟩
  r2 := ⟨0, 0⟩
  k := ⟨0, 0, 0, 0⟩
  jAcc := ⟨0, 0⟩
  bias := ⟨0, 0⟩

/-- The function `cpGrooveJointInit`. The header `c` stands for the tuning values
that `cpConstraintInit` (not among the sources) stores; the bodies `a`, `b` are
held by `cpWorld`. -/
def cpGrooveJointInit (M : cpMath α) (joint : cpGrooveJoint α) (c : cpConstraint α)
    (groove_a groove_b anchorB : cpVect α) : cpGrooveJoint α :=
  let joint := { joint with constraint := c }
  let joint := { joint with grv_a := groove_a }
  let joint := { joint with grv_b := groove_b }
  let joint := { joint with grv_n := cpvperp (cpvnormalize M (cpvsub groove_b groove_a)) }
  let joint := { joint with anchorB := anchorB }
  let joint := { joint with jAcc := cpvzero }
  joint

/-- The function `cpGrooveJointNew`. -/
def cpGrooveJointNew (M : cpMath α) (c : cpConstraint α)
    (groove_a groove_b anchorB : cpVect α) : cpGrooveJoint α :=
  cpGrooveJointInit M cpGrooveJointAlloc c groove_a groove_b anchorB

end cpGrooveJoint

/-! ## `cpRatchetJoint.c` -/

namespace cpRatchetJoint

/-- The function `preStep` of `cpRatchetJoint.c`. -/
def preStep [FloorRing α] (M : cpMath α) (s : cpWorld (cpRatchetJoint α) α) (dt : α) :
    cpWorld (cpRatchetJoint α) α :=
  let joint := s.joint
  let a := s.a
  let b := s.b
  let angle := joint.angle
  let phase := joint.phase
  let ratchet := joint.ratchet
  let delta := b.a - a.a
  let diff := angle - delta
  let pdist : α := 0
  let r : α × cpRatchetJoint α :=
    if diff * ratchet > 0 then
      (diff, joint)
    else
      (pdist, { joint with angle := cpffloor ((delta - phase) / ratchet) * ratchet + phase })
  let pdist := r.1
  let joint := r.2
  -- calculate moment of inertia coefficient
  let joint := { joint with iSum := 1 / (a.i_inv + b.i_inv) }
  -- calculate bias velocity
  let maxBias := joint.constraint.maxBias
  let joint := { joint with
    bias := cpfclamp (-(bias_coef M joint.constraint.errorBias dt) * pdist / dt) (-maxBias) maxBias }
  -- if the bias is 0, the joint is not at a limit: reset the impulse
  let joint := if joint.bias = 0 then { joint with jAcc := 0 } else joint
  { joint := joint, a := a, b := b }

/-- The function `applyCachedImpulse` of `cpRatchetJoint.c`. -/
def applyCachedImpulse (s : cpWorld (cpRatchetJoint α) α) (dt_coef : α) :
    cpWorld (cpRatchetJoint α) α :=
  let joint := s.joint
  let a := s.a
  let b := s.b
  let j := joint.jAcc * dt_coef
  let a := { a with w := a.w - j * a.i_inv }
  let b := { b with w := b.w + j * b.i_inv }
  { joint := joint, a := a, b := b }

/-- The function `applyImpulse` of `cpRatchetJoint.c`. -/
def applyImpulse (s : cpWorld (cpRatchetJoint α) α) (dt : α) : cpWorld (cpRatchetJoint α) α :=
  if s.joint.bias = 0 then s -- early exit
  else
    let joint := s.joint
    let a := s.a
    let b := s.b
    -- compute relative rotational velocity
    let wr := b.w - a.w
    let ratchet := joint.ratchet
    let jMax := joint.constraint.maxForce * dt
    -- compute normal impulse
    let j := -(joint.bias + wr) * joint.iSum
    let jOld := joint.jAcc
    let joint := { joint with
      jAcc := cpfclamp ((jOld + j) * ratchet) 0 (jMax * cpfabs ratchet) / ratchet }
    let j := joint.jAcc - jOld
    -- apply impulse
    let a := { a with w := a.w - j * a.i_inv }
    let b := { b with w := b.w + j * b.i_inv }
    { joint := joint, a := a, b := b }

/-- The function `getImpulse` of `cpRatchetJoint.c`. -/
def getImpulse (joint : cpRatchetJoint α) : α := cpfabs joint.jAcc

/-- The function `cpRatchetJointAlloc`: `cpcalloc` returns zeroed memory. -/
def cpRatchetJointAlloc : cpRatchetJoint α where
  constraint := ⟨0, 0, 0⟩
  angle := 0
  phase := 0
  ratchet := 0
  iSum := 0
  bias := 0
  jAcc := 0

/-- The function `cpRatchetJointInit`; a null body pointer is `none`. The header
`c` stands for the tuning values that `cpConstraintInit` (not among the sources)
stores. -/
def cpRatchetJointInit (joint : cpRatchetJoint α) (c : cpConstraint α)
    (a b : Option (cpBody α)) (phase ratchet : α) : cpRatchetJoint α :=
  let joint := { joint with constraint := c }
  let joint := { joint with angle := 0 }
  let joint := { joint with phase := phase }
  let joint := { joint with ratchet := ratchet }
  -- STATIC_BODY_CHECK
  let joint := { joint with
    angle := (match b with | some b => b.a | none => 0) - (match a with | some a => a.a | none => 0) }
  joint

/-- The function `cpRatchetJointNew`. -/
def cpRatchetJointNew (c : cpConstraint α) (a b : Option (cpBody α)) (phase ratchet : α) :
    cpRatchetJoint α :=
  cpRatchetJointInit cpRatchetJointAlloc c a b phase ratchet

end cpRatchetJoint

end Defs

/-! ## Executable instances used to evaluate the definitions -/

/-- The standard helpers of the solver. Modelled from the spec:
`relative_velocity` is the relative velocity at the constraint's two anchor
points, `(b.v + perp(r2)*b.w) - (a.v + perp(r1)*a.w)`, and `k_tensor` is the
inverse of `(a.m_inv + b.m_inv) I` plus the contributions of the two lever
arms weighted by the inverse moments. -/
def cpPrivateStd {α : Type} [LinearOrderedField α] : cpPrivate α where
  relative_velocity := fun a b r1 r2 =>
    cpvsub (cpvadd b.v (cpvmult (cpvperp r2) b.w)) (cpvadd a.v (cpvmult (cpvperp r1) a.w))
  k_tensor := fun a b r1 r2 =>
    let m_sum := a.m_inv + b.m_inv
    let k11 := m_sum + r1.y * r1.y * a.i_inv + r2.y * r2.y * b.i_inv
    let k12 := -r1.x * r1.y * a.i_inv + -r2.x * r2.y * b.i_inv
    let k21 := -r1.x * r1.y * a.i_inv + -r2.x * r2.y * b.i_inv
    let k22 := m_sum + r1.x * r1.x * a.i_inv + r2.x * r2.x * b.i_inv
    let det := k11 * k22 - k12 * k21
    let det_inv := 1 / det
    cpMat2x2New (k22 * det_inv) (-k12 * det_inv) (-k21 * det_inv) (k11 * det_inv)

/-- Rational arithmetic as `cpFloat`: `Rat.sqrt` (exact on squares of
rationals), powers with the exponent rounded down to an integer (exact for
integer exponents) and `CPFLOAT_MIN = 2^-1022`. -/
def cpMathQ : cpMath ℚ where
  cpfsqrt := Rat.sqrt
  cpfpow := fun x y => x ^ ⌊y⌋
  CPFLOAT_MIN := 1 / 2 ^ 1022

/-- A body of unit mass and moment at rest at `p`, angle 0, centre of gravity at
its origin; its cached transform is the translation by `p`. -/
def cpBodyAt {α : Type} [LinearOrderedField α] (p : cpVect α) : cpBody α where
  p := p
  v := cpvzero
  a := 0
  w := 0
  m_inv := 1
  i_inv := 1
  cog := cpvzero
  transform := ⟨1, 0, 0, 1, p.x, p.y⟩

/-- The constraint header used in the examples: `maxForce = 1000`,
`errorBias = 1/2`, `maxBias = 1000`. -/
def cpConstraintEx {α : Type} [LinearOrderedField α] : cpConstraint α := ⟨1000, 1 / 2, 1000⟩

/-- A groove joint from `(0,0)` to `(1,0)` on a body A at the origin, as made by
`cpGrooveJointNew`, with body B (anchor at its origin) placed at `pb`. -/
def grooveWorld {α : Type} [LinearOrderedField α] (M : cpMath α) (pb : cpVect α) :
    cpWorld (cpGrooveJoint α) α where
  joint := cpGrooveJoint.cpGrooveJointNew M cpConstraintEx ⟨0, 0⟩ ⟨1, 0⟩ ⟨0, 0⟩
  a := cpBodyAt ⟨0, 0⟩
  b := cpBodyAt pb

/-- A ratchet joint as made by `cpRatchetJointNew` with the header `c` between two
bodies at rest at the origin (relative angle 0), its latch angle then set to
`angle` (`cpRatchetJointSetAngle`) and its accumulated impulse being `jAcc`. -/
def ratchetWorld {α : Type} [LinearOrderedField α] (c : cpConstraint α)
    (phase ratchet angle jAcc : α) : cpWorld (cpRatchetJoint α) α where
  joint :=
    { cpRatchetJoint.cpRatchetJointNew c (some (cpBodyAt ⟨0, 0⟩)) (some (cpBodyAt ⟨0, 0⟩))
        phase ratchet with angle := angle, jAcc := jAcc }
  a := cpBodyAt ⟨0, 0⟩
  b := cpBodyAt ⟨0, 0⟩

/-! ## `cpGrooveJoint.c`: getters and setters

The accessors take a `cpConstraint *` and first assert with `cpAssertHard` that
it is a groove joint; here the argument is a `cpGrooveJoint`, so that check
holds by typing. `cpConstraintActivateBodies` (not among the sources) wakes the
two bodies; it does not write to the joint. -/

namespace cpGrooveJoint

/-- The function `cpGrooveJointGetGrooveA`. -/
def cpGrooveJointGetGrooveA {α : Type} (g : cpGrooveJoint α) : cpVect α := g.grv_a

/-- The function `cpGrooveJointSetGrooveA`. -/
def cpGrooveJointSetGrooveA {α : Type} [LinearOrderedField α] (M : cpMath α)
    (g : cpGrooveJoint α) (value : cpVect α) : cpGrooveJoint α :=
  let g := { g with grv_a := value }
  let g := { g with grv_n := cpvperp (cpvnormalize M (cpvsub g.grv_b value)) }
  g

/-- The function `cpGrooveJointGetGrooveB`. -/
def cpGrooveJointGetGrooveB {α : Type} (g : cpGrooveJoint α) : cpVect α := g.grv_b

/-- The function `cpGrooveJointSetGrooveB`. -/
def cpGrooveJointSetGrooveB {α : Type} [LinearOrderedField α] (M : cpMath α)
    (g : cpGrooveJoint α) (value : cpVect α) : cpGrooveJoint α :=
  let g := { g with grv_b := value }
  let g := { g with grv_n := cpvperp (cpvnormalize M (cpvsub value g.grv_a)) }
  g

/-- The function `cpGrooveJointGetAnchorB`. -/
def cpGrooveJointGetAnchorB {α : Type} (g : cpGrooveJoint α) : cpVect α := g.anchorB

/-- The function `cpGrooveJointSetAnchorB`. -/
def cpGrooveJointSetAnchorB {α : Type} (g : cpGrooveJoint α) (anchorB : cpVect α) :
    cpGrooveJoint α :=
  { g with anchorB := anchorB }

end cpGrooveJoint

/-- One call of a groove joint setter, with its argument. -/
inductive GrooveSetterCall (α : Type) where
  | setGrooveA (value : cpVect α)
  | setGrooveB (value : cpVect α)
  | setAnchorB (value : cpVect α)

/-- Perform one setter call on a groove joint. -/
def GrooveSetterCall.run {α : Type} [LinearOrderedField α] (M : cpMath α)
    (g : cpGrooveJoint α) : GrooveSetterCall α → cpGrooveJoint α
  | .setGrooveA value => cpGrooveJoint.cpGrooveJointSetGrooveA M g value
  | .setGrooveB value => cpGrooveJoint.cpGrooveJointSetGrooveB M g value
  | .setAnchorB value => cpGrooveJoint.cpGrooveJointSetAnchorB g value

/-- The stored normal of a groove joint is the perpendicular of the normalized
groove direction. -/
def GrooveNormalOk {α : Type} [LinearOrderedField α] (M : cpMath α) (g : cpGrooveJoint α) :
    Prop :=
  g.grv_n = cpvperp (cpvnormalize M (cpvsub g.grv_b g.grv_a))

namespace Verification

/-! ## General lemmas -/

section Lemmas

variable {α : Type} [LinearOrderedField α]

theorem cpvclamp_eq_mult (M : cpMath α) (v : cpVect α) (len : α) :
    ∃ t, cpvclamp M v len = cpvmult v t := by
  unfold cpvclamp
  split_ifs with h
  · exact ⟨1 / (cpvlength M v + M.CPFLOAT_MIN) * len, by
      simp [cpvnormalize, cpvmult, cpv, mul_assoc]⟩
  · exact ⟨1, by simp [cpvmult, cpv]⟩

theorem grooveConstrain_clamp_zero (M : cpMath α) (joint : cpGrooveJoint α) (j : cpVect α)
    (dt : α) (h : joint.clamp = 0) :
    ∃ t, cpGrooveJoint.grooveConstrain M joint j dt = cpvmult joint.grv_tn t := by
  unfold cpGrooveJoint.grooveConstrain
  simp only [h, zero_mul, lt_self_iff_false, gt_iff_lt, if_false]
  obtain ⟨t, ht⟩ := cpvclamp_eq_mult M (cpvproject j joint.grv_tn) (joint.constraint.maxForce * dt)
  refine ⟨cpvdot j joint.grv_tn / cpvdot joint.grv_tn joint.grv_tn * t, ?_⟩
  rw [ht]
  simp [cpvproject, cpvmult, cpv, mul_assoc]

theorem groove_preStep_grv_tn (M : cpMath α) (P : cpPrivate α)
    (s : cpWorld (cpGrooveJoint α) α) (dt : α) :
    (cpGrooveJoint.preStep M P s dt).joint.grv_tn
      = cpTransformVect s.a.transform s.joint.grv_n := by
  unfold cpGrooveJoint.preStep
  simp only
  split_ifs <;> rfl

theorem rigid_normal_dot_axis (t : cpTransform α) (h : t.IsRigid) (ga gb : cpVect α) (c u : α) :
    cpvdot (cpvmult (cpTransformVect t (cpvperp (cpvmult (cpvsub gb ga) c))) u)
      (cpvsub (cpTransformPoint t gb) (cpTransformPoint t ga)) = 0 := by
  obtain ⟨hd, hc, -⟩ := h
  simp only [cpvdot, cpvmult, cpTransformVect, cpTransformPoint, cpvperp, cpvsub, cpv, hd, hc]
  ring

theorem cpvdot_self_nonneg (v : cpVect α) : 0 ≤ cpvdot v v := by
  unfold cpvdot
  nlinarith [mul_self_nonneg v.x, mul_self_nonneg v.y]

theorem cpvdot_cpvmult_self (v : cpVect α) (t : α) :
    cpvdot (cpvmult v t) (cpvmult v t) = cpvdot v v * (t * t) := by
  simp only [cpvdot, cpvmult, cpv]
  ring

/-- With an exact square root and `0 ≤ len`, the squared length of
`cpvclamp v len` is at most `len * len`. -/
theorem cpvclamp_lengthsq_le (M : cpMath α) (hM : M.Exact) (v : cpVect α) (len : α)
    (hlen : 0 ≤ len) :
    cpvdot (cpvclamp M v len) (cpvclamp M v len) ≤ len * len := by
  unfold cpvclamp
  split_ifs with h
  · have hv : 0 ≤ cpvdot v v := cpvdot_self_nonneg v
    have hs0 : 0 ≤ M.cpfsqrt (cpvdot v v) := hM.sqrt_nonneg _
    have hss : M.cpfsqrt (cpvdot v v) * M.cpfsqrt (cpvdot v v) = cpvdot v v := hM.sqrt_sq _ hv
    have hm : 0 < M.CPFLOAT_MIN := hM.min_pos
    have hpos : 0 < M.cpfsqrt (cpvdot v v) + M.CPFLOAT_MIN := by linarith
    have hq0 : 0 ≤ M.cpfsqrt (cpvdot v v) / (M.cpfsqrt (cpvdot v v) + M.CPFLOAT_MIN) :=
      div_nonneg hs0 hpos.le
    have hq1 : M.cpfsqrt (cpvdot v v) / (M.cpfsqrt (cpvdot v v) + M.CPFLOAT_MIN) ≤ 1 := by
      rw [div_le_one hpos]
      linarith
    have key : cpvdot (cpvmult (cpvnormalize M v) len) (cpvmult (cpvnormalize M v) len)
        = (M.cpfsqrt (cpvdot v v) / (M.cpfsqrt (cpvdot v v) + M.CPFLOAT_MIN))
          * (M.cpfsqrt (cpvdot v v) / (M.cpfsqrt (cpvdot v v) + M.CPFLOAT_MIN)) * (len * len) := by
      rw [cpvdot_cpvmult_self, cpvnormalize, cpvdot_cpvmult_self, cpvlength]
      nth_rewrite 1 [← hss]
      field_simp
    rw [key]
    have hq2 : (M.cpfsqrt (cpvdot v v) / (M.cpfsqrt (cpvdot v v) + M.CPFLOAT_MIN))
          * (M.cpfsqrt (cpvdot v v) / (M.cpfsqrt (cpvdot v v) + M.CPFLOAT_MIN)) ≤ 1 := by
      nlinarith
    have hl : 0 ≤ len * len := mul_nonneg hlen hlen
    nlinarith
  · exact not_lt.mp h

/-- With an exact square root, a vector of squared length at most `len * len`,
`0 ≤ len`, has length at most `len`. -/
theorem cpvlength_le_of_lengthsq_le (M : cpMath α) (hM : M.Exact) (v : cpVect α) (len : α)
    (hlen : 0 ≤ len) (h : cpvdot v v ≤ len * len) : cpvlength M v ≤ len := by
  unfold cpvlength
  have hs0 : 0 ≤ M.cpfsqrt (cpvdot v v) := hM.sqrt_nonneg _
  have hss : M.cpfsqrt (cpvdot v v) * M.cpfsqrt (cpvdot v v) = cpvdot v v :=
    hM.sqrt_sq _ (cpvdot_self_nonneg v)
  by_contra hc
  push_neg at hc
  nlinarith

theorem cpfabs_eq_abs (f : α) : cpfabs f = |f| := by
  unfold cpfabs
  split_ifs with h
  · exact (abs_of_neg h).symm
  · exact (abs_of_nonneg (not_lt.mp h)).symm

theorem cpfclamp_le (f lo hi : α) : cpfclamp f lo hi ≤ hi := by
  unfold cpfclamp cpfmin
  split_ifs with h
  · exact h.le
  · exact le_refl hi

theorem le_cpfclamp (f lo hi : α) (h : lo ≤ hi) : lo ≤ cpfclamp f lo hi := by
  unfold cpfclamp cpfmin cpfmax
  split_ifs <;> linarith

theorem cpfclamp_eq_self (f lo hi : α) (h1 : lo ≤ f) (h2 : f ≤ hi) : cpfclamp f lo hi = f := by
  unfold cpfclamp cpfmin cpfmax
  split_ifs <;> linarith

/-- The latch angle computed from `floor` never lies beyond the relative angle
`delta` in the ratchet direction. -/
theorem floor_latch_not_engaged [FloorRing α] (delta phase ratchet : α) :
    (cpffloor ((delta - phase) / ratchet) * ratchet + phase - delta) * ratchet ≤ 0 := by
  unfold cpffloor
  by_cases hr : ratchet = 0
  · simp [hr]
  · have hq : delta - phase = (delta - phase) / ratchet * ratchet := by field_simp
    have hfl : ((⌊(delta - phase) / ratchet⌋ : ℤ) : α) ≤ (delta - phase) / ratchet :=
      Int.floor_le _
    have hsq : 0 ≤ ratchet * ratchet := mul_self_nonneg ratchet
    have : (((⌊(delta - phase) / ratchet⌋ : ℤ) : α) * ratchet + phase - delta) * ratchet
        = (((⌊(delta - phase) / ratchet⌋ : ℤ) : α) - (delta - phase) / ratchet)
          * (ratchet * ratchet) := by
      have : phase - delta = -((delta - phase) / ratchet * ratchet) := by rw [← hq]; ring
      calc (((⌊(delta - phase) / ratchet⌋ : ℤ) : α) * ratchet + phase - delta) * ratchet
          = (((⌊(delta - phase) / ratchet⌋ : ℤ) : α) * ratchet + (phase - delta)) * ratchet := by
            ring
        _ = _ := by rw [this]; ring
    rw [this]
    exact mul_nonpos_of_nonpos_of_nonneg (by linarith) hsq

theorem cpvlength_nonneg (M : cpMath α) (hM : M.Exact) (v : cpVect α) : 0 ≤ cpvlength M v :=
  hM.sqrt_nonneg _

theorem cpvlength_mul_self (M : cpMath α) (hM : M.Exact) (v : cpVect α) :
    cpvlength M v * cpvlength M v = cpvdot v v :=
  hM.sqrt_sq _ (cpvdot_self_nonneg v)

/-- With an exact square root and `0 ≤ len`: `|v| ≤ len` iff `v . v ≤ len * len`. -/
theorem cpvlength_le_iff (M : cpMath α) (hM : M.Exact) (v : cpVect α) (len : α)
    (hlen : 0 ≤ len) : cpvlength M v ≤ len ↔ cpvdot v v ≤ len * len := by
  rw [← cpvlength_mul_self M hM v]
  exact mul_self_le_mul_self_iff (cpvlength_nonneg M hM v) hlen

/-- With an exact square root and `0 ≤ len`: `|v| < len` iff `v . v < len * len`. -/
theorem cpvlength_lt_iff (M : cpMath α) (hM : M.Exact) (v : cpVect α) (len : α)
    (hlen : 0 ≤ len) : cpvlength M v < len ↔ cpvdot v v < len * len := by
  rw [← cpvlength_mul_self M hM v]
  exact mul_self_lt_mul_self_iff (cpvlength_nonneg M hM v) hlen

/-- One call of the ratchet joint's `applyImpulse` changes only `w` of the two
bodies, and keeps `a.w + jAcc * a.i_inv` and `b.w - jAcc * b.i_inv`. -/
theorem ratchet_applyImpulse_step (s : cpWorld (cpRatchetJoint α) α) (dt : α) :
    (cpRatchetJoint.applyImpulse s dt).a
      = { s.a with w := s.a.w + s.joint.jAcc * s.a.i_inv
            - (cpRatchetJoint.applyImpulse s dt).joint.jAcc * s.a.i_inv } ∧
    (cpRatchetJoint.applyImpulse s dt).b
      = { s.b with w := s.b.w - s.joint.jAcc * s.b.i_inv
            + (cpRatchetJoint.applyImpulse s dt).joint.jAcc * s.b.i_inv } := by
  unfold cpRatchetJoint.applyImpulse
  split_ifs with h
  · constructor
    · cases hs : s.a
      simp
    · cases hs : s.b
      simp
  · constructor
    · simp only
      congr 1
      ring
    · simp only
      congr 1
      ring

/-- Any sequence of ratchet `applyImpulse` calls changes only `w` of the two
bodies, and keeps `a.w + jAcc * a.i_inv` and `b.w - jAcc * b.i_inv`. -/
theorem ratchet_applyImpulse_seq (dts : List α)
    (s : cpWorld (cpRatchetJoint α) α) :
    (dts.foldl cpRatchetJoint.applyImpulse s).a
      = { s.a with w := s.a.w + s.joint.jAcc * s.a.i_inv
            - (dts.foldl cpRatchetJoint.applyImpulse s).joint.jAcc * s.a.i_inv } ∧
    (dts.foldl cpRatchetJoint.applyImpulse s).b
      = { s.b with w := s.b.w - s.joint.jAcc * s.b.i_inv
            + (dts.foldl cpRatchetJoint.applyImpulse s).joint.jAcc * s.b.i_inv } := by
  induction dts generalizing s with
  | nil =>
    constructor
    · cases hs : s.a
      simp [hs]
    · cases hs : s.b
      simp [hs]
  | cons dt dts ih =>
    simp only [List.foldl_cons]
    obtain ⟨ha, hb⟩ := ih (cpRatchetJoint.applyImpulse s dt)
    obtain ⟨ha1, hb1⟩ := ratchet_applyImpulse_step s dt
    constructor
    · rw [ha, ha1]
      simp only
      congr 1
      ring
    · rw [hb, hb1]
      simp only
      congr 1
      ring

/-- In the tooth-passed branch the ratchet joint's pre-step stores the
`floor`-based latch angle. -/
theorem ratchet_preStep_angle_passed [FloorRing α] (M : cpMath α)
    (s : cpWorld (cpRatchetJoint α) α) (dt : α)
    (hpass : (s.joint.angle - (s.b.a - s.a.a)) * s.joint.ratchet ≤ 0) :
    (cpRatchetJoint.preStep M s dt).joint.angle
      = cpffloor (((s.b.a - s.a.a) - s.joint.phase) / s.joint.ratchet) * s.joint.ratchet
        + s.joint.phase := by
  unfold cpRatchetJoint.preStep
  simp only [not_lt.mpr hpass, gt_iff_lt, if_false]
  split_ifs <;> rfl

theorem cpvcross_cpvmult_self (n : cpVect α) (t : α) : cpvcross (cpvmult n t) n = 0 := by
  simp only [cpvcross, cpvmult, cpv]
  ring

theorem cpvdot_cpvperp_cpvmult (w : cpVect α) (c : α) :
    cpvdot (cpvperp (cpvmult w c)) w = 0 := by
  simp only [cpvdot, cpvperp, cpvmult, cpv]
  ring

theorem grooveSetter_run_normal (M : cpMath α) (g : cpGrooveJoint α)
    (c : GrooveSetterCall α) (h : GrooveNormalOk M g) : GrooveNormalOk M (c.run M g) := by
  cases c with
  | setGrooveA value => rfl
  | setGrooveB value => rfl
  | setAnchorB value => exact h

theorem grooveSetter_foldl_normal (M : cpMath α) (calls : List (GrooveSetterCall α))
    (g : cpGrooveJoint α) (h : GrooveNormalOk M g) :
    GrooveNormalOk M (calls.foldl (GrooveSetterCall.run M) g) := by
  induction calls generalizing g with
  | nil => exact h
  | cons c cs ih => exact ih _ (grooveSetter_run_normal M g c h)

end Lemmas

theorem rat_sqrt_one : Rat.sqrt 1 = 1 := by decide

/-! ## The claims -/

/-- C1 (as amended): after the groove joint's pre-step, clamp = +1 means the
joint is pinned at endpoint A, `r1 = T_a(groove_a) - a.p`, and clamp = -1 means
it is pinned at endpoint B, `r1 = T_a(groove_b) - a.p`. -/
theorem groove_preStep_clamp_pins (α : Type) [LinearOrderedField α] (M : cpMath α)
    (P : cpPrivate α) (s : cpWorld (cpGrooveJoint α) α) (dt : α) :
    ((cpGrooveJoint.preStep M P s dt).joint.clamp = 1 →
        (cpGrooveJoint.preStep M P s dt).joint.r1
          = cpvsub (cpTransformPoint s.a.transform s.joint.grv_a) s.a.p) ∧
    ((cpGrooveJoint.preStep M P s dt).joint.clamp = -1 →
        (cpGrooveJoint.preStep M P s dt).joint.r1
          = cpvsub (cpTransformPoint s.a.transform s.joint.grv_b) s.a.p) := by
  unfold cpGrooveJoint.preStep
  constructor
  · intro h
    simp only at h ⊢
    split_ifs at h ⊢ with h1 h2
    · rfl
    · norm_num at h
    · norm_num at h
  · intro h
    simp only at h ⊢
    split_ifs at h ⊢ with h1 h2
    · norm_num at h
    · rfl
    · norm_num at h

/-- Witness for C1 (as amended): with body B's anchor at `(-1, 0)`, before endpoint
A of the groove `(0,0)-(1,0)`, clamp = +1 and `r1 = T_a(groove_a) - a.p`; with the
anchor at `(2, 0)`, past endpoint B, clamp = -1 and `r1 = T_a(groove_b) - a.p`. -/
theorem groove_preStep_clamp_pins_witness :
    ((cpGrooveJoint.preStep cpMathQ cpPrivateStd (grooveWorld cpMathQ ⟨-1, 0⟩) 1).joint.clamp = 1 ∧
     (cpGrooveJoint.preStep cpMathQ cpPrivateStd (grooveWorld cpMathQ ⟨-1, 0⟩) 1).joint.r1
       = cpvsub (cpTransformPoint (grooveWorld cpMathQ ⟨-1, 0⟩).a.transform
           (grooveWorld cpMathQ ⟨-1, 0⟩).joint.grv_a) (grooveWorld cpMathQ ⟨-1, 0⟩).a.p) ∧
    ((cpGrooveJoint.preStep cpMathQ cpPrivateStd (grooveWorld cpMathQ ⟨2, 0⟩) 1).joint.clamp = -1 ∧
     (cpGrooveJoint.preStep cpMathQ cpPrivateStd (grooveWorld cpMathQ ⟨2, 0⟩) 1).joint.r1
       = cpvsub (cpTransformPoint (grooveWorld cpMathQ ⟨2, 0⟩).a.transform
           (grooveWorld cpMathQ ⟨2, 0⟩).joint.grv_b) (grooveWorld cpMathQ ⟨2, 0⟩).a.p) := by
  have h1 : (cpGrooveJoint.preStep cpMathQ cpPrivateStd
      (grooveWorld cpMathQ ⟨-1, 0⟩) 1).joint.clamp = 1 := by
    norm_num [cpGrooveJoint.preStep, grooveWorld, cpGrooveJoint.cpGrooveJointNew,
      cpGrooveJoint.cpGrooveJointInit, cpGrooveJoint.cpGrooveJointAlloc, cpBodyAt,
      cpTransformPoint, cpTransformVect, cpvperp, cpvnormalize, cpvlength, cpvmult, cpvsub,
      cpvadd, cpvdot, cpvcross, cpv, cpvzero, cpMathQ, rat_sqrt_one]
  have h2 : (cpGrooveJoint.preStep cpMathQ cpPrivateStd
      (grooveWorld cpMathQ ⟨2, 0⟩) 1).joint.clamp = -1 := by
    norm_num [cpGrooveJoint.preStep, grooveWorld, cpGrooveJoint.cpGrooveJointNew,
      cpGrooveJoint.cpGrooveJointInit, cpGrooveJoint.cpGrooveJointAlloc, cpBodyAt,
      cpTransformPoint, cpTransformVect, cpvperp, cpvnormalize, cpvlength, cpvmult, cpvsub,
      cpvadd, cpvdot, cpvcross, cpv, cpvzero, cpMathQ, rat_sqrt_one]
  exact ⟨⟨h1, (groove_preStep_clamp_pins ℚ cpMathQ cpPrivateStd
      (grooveWorld cpMathQ ⟨-1, 0⟩) 1).1 h1⟩,
    ⟨h2, (groove_preStep_clamp_pins ℚ cpMathQ cpPrivateStd (grooveWorld cpMathQ ⟨2, 0⟩) 1).2 h2⟩⟩

/-- C1 fails as stated: with body B's anchor at `(-1, 0)`, before endpoint A of
the groove `(0,0)-(1,0)`, pre-step sets clamp = +1 and `r1` is not
`T_a(groove_b) - a.p`. -/
theorem groove_preStep_clamp_one_not_endpoint_b :
    (cpGrooveJoint.preStep cpMathQ cpPrivateStd (grooveWorld cpMathQ ⟨-1, 0⟩) 1).joint.clamp = 1 ∧
    (cpGrooveJoint.preStep cpMathQ cpPrivateStd (grooveWorld cpMathQ ⟨-1, 0⟩) 1).joint.r1
      ≠ cpvsub (cpTransformPoint (grooveWorld cpMathQ ⟨-1, 0⟩).a.transform
          (grooveWorld cpMathQ ⟨-1, 0⟩).joint.grv_b) (grooveWorld cpMathQ ⟨-1, 0⟩).a.p := by
  constructor
  · norm_num [cpGrooveJoint.preStep, grooveWorld, cpGrooveJoint.cpGrooveJointNew,
      cpGrooveJoint.cpGrooveJointInit, cpGrooveJoint.cpGrooveJointAlloc, cpBodyAt,
      cpTransformPoint, cpTransformVect, cpvperp, cpvnormalize, cpvlength, cpvmult, cpvsub,
      cpvadd, cpvdot, cpvcross, cpv, cpvzero, cpMathQ, rat_sqrt_one]
  · norm_num [cpGrooveJoint.preStep, grooveWorld, cpGrooveJoint.cpGrooveJointNew,
      cpGrooveJoint.cpGrooveJointInit, cpGrooveJoint.cpGrooveJointAlloc, cpBodyAt,
      cpTransformPoint, cpTransformVect, cpvperp, cpvnormalize, cpvlength, cpvmult, cpvsub,
      cpvadd, cpvdot, cpvcross, cpv, cpvzero, cpMathQ, rat_sqrt_one]

/-- C2 (as amended): for a groove joint whose normal is the one stored by the
constructor and setters, body A's transform a rigid motion and clamp = 0 after
pre-step, the accumulated impulse left by apply-impulse has no component along
the groove (the world-space direction from groove_a to groove_b), whatever the
previous accumulated impulse `jOld` and the state `a1`, `b1` of the two bodies. -/
theorem groove_applyImpulse_no_axis_component (α : Type) [LinearOrderedField α]
    (M : cpMath α) (P : cpPrivate α) (s : cpWorld (cpGrooveJoint α) α) (dt : α)
    (jOld : cpVect α) (a1 b1 : cpBody α)
    (hn : s.joint.grv_n = cpvperp (cpvnormalize M (cpvsub s.joint.grv_b s.joint.grv_a)))
    (hrigid : s.a.transform.IsRigid)
    (hclamp : (cpGrooveJoint.preStep M P s dt).joint.clamp = 0) :
    cpvdot
      (cpGrooveJoint.applyImpulse M P
        { joint := { (cpGrooveJoint.preStep M P s dt).joint with jAcc := jOld }, a := a1, b := b1 } dt).joint.jAcc
      (cpvsub (cpTransformPoint s.a.transform s.joint.grv_b)
        (cpTransformPoint s.a.transform s.joint.grv_a)) = 0 := by
  obtain ⟨t, ht⟩ := grooveConstrain_clamp_zero M
    { (cpGrooveJoint.preStep M P s dt).joint with jAcc := jOld }
    (cpvadd jOld (cpMat2x2Transform (cpGrooveJoint.preStep M P s dt).joint.k
      (cpvsub (cpGrooveJoint.preStep M P s dt).joint.bias
        (P.relative_velocity a1 b1 (cpGrooveJoint.preStep M P s dt).joint.r1 (cpGrooveJoint.preStep M P s dt).joint.r2))))
    dt hclamp
  have hj : (cpGrooveJoint.applyImpulse M P
        { joint := { (cpGrooveJoint.preStep M P s dt).joint with jAcc := jOld }, a := a1, b := b1 } dt).joint.jAcc
      = cpvmult (cpTransformVect s.a.transform s.joint.grv_n) t := by
    rw [← groove_preStep_grv_tn M P s dt]
    exact ht
  rw [hj, hn, cpvnormalize]
  exact rigid_normal_dot_axis _ hrigid _ _ _ _

/-- C2 fails as stated: with the anchor at `(1/2, 0)` inside the groove
`(0,0)-(1,0)` (clamp = 0), bodies at rest and previous impulse `(0, 1)`,
apply-impulse leaves `jAcc` with a non-zero component perpendicular to the
groove direction: its cross product with that direction is `-1`. -/
theorem groove_applyImpulse_across_component :
    (grooveWorld cpMathQ ⟨1 / 2, 0⟩).joint.grv_a ≠ (grooveWorld cpMathQ ⟨1 / 2, 0⟩).joint.grv_b ∧
    (grooveWorld cpMathQ ⟨1 / 2, 0⟩).a.transform.IsRigid ∧
    (cpGrooveJoint.preStep cpMathQ cpPrivateStd (grooveWorld cpMathQ ⟨1 / 2, 0⟩) 1).joint.clamp = 0 ∧
    cpvcross
      (cpGrooveJoint.applyImpulse cpMathQ cpPrivateStd
        { joint := { (cpGrooveJoint.preStep cpMathQ cpPrivateStd (grooveWorld cpMathQ ⟨1 / 2, 0⟩) 1).joint with
                     jAcc := ⟨0, 1⟩ },
          a := cpBodyAt ⟨0, 0⟩, b := cpBodyAt ⟨1 / 2, 0⟩ } 1).joint.jAcc
      (cpvsub
        (cpTransformPoint (grooveWorld cpMathQ ⟨1 / 2, 0⟩).a.transform
          (grooveWorld cpMathQ ⟨1 / 2, 0⟩).joint.grv_b)
        (cpTransformPoint (grooveWorld cpMathQ ⟨1 / 2, 0⟩).a.transform
          (grooveWorld cpMathQ ⟨1 / 2, 0⟩).joint.grv_a)) = -1 := by
  refine ⟨?_, ?_, ?_, ?_⟩
  · norm_num [grooveWorld, cpGrooveJoint.cpGrooveJointNew, cpGrooveJoint.cpGrooveJointInit,
      cpGrooveJoint.cpGrooveJointAlloc]
  · norm_num [grooveWorld, cpBodyAt, cpTransform.IsRigid]
  · norm_num [cpGrooveJoint.preStep, grooveWorld, cpGrooveJoint.cpGrooveJointNew,
      cpGrooveJoint.cpGrooveJointInit, cpGrooveJoint.cpGrooveJointAlloc, cpBodyAt,
      cpTransformPoint, cpTransformVect, cpvperp, cpvnormalize, cpvlength, cpvmult, cpvsub,
      cpvadd, cpvdot, cpvcross, cpv, cpvzero, cpMathQ, rat_sqrt_one]
  · norm_num [cpGrooveJoint.applyImpulse, cpGrooveJoint.grooveConstrain, cpvclamp, cpvproject,
      cpMat2x2Transform, cpPrivateStd, cpMat2x2New, bias_coef, cpConstraintEx, apply_impulses,
      apply_impulse, cpGrooveJoint.preStep, grooveWorld, cpGrooveJoint.cpGrooveJointNew,
      cpGrooveJoint.cpGrooveJointInit, cpGrooveJoint.cpGrooveJointAlloc, cpBodyAt,
      cpTransformPoint, cpTransformVect, cpvperp, cpvnormalize, cpvlength, cpvmult, cpvsub,
      cpvadd, cpvdot, cpvcross, cpv, cpvzero, cpvneg, cpMathQ, rat_sqrt_one]

/-- Witness for C2 (as amended): the groove `(0,0)-(1,0)` with the anchor at
`(1/2, 0)`, bodies at rest, previous impulse `(0, 1)`. -/
theorem groove_applyImpulse_no_axis_component_witness :
    (grooveWorld cpMathQ ⟨1 / 2, 0⟩).joint.grv_n
      = cpvperp (cpvnormalize cpMathQ (cpvsub (grooveWorld cpMathQ ⟨1 / 2, 0⟩).joint.grv_b
          (grooveWorld cpMathQ ⟨1 / 2, 0⟩).joint.grv_a)) ∧
    (grooveWorld cpMathQ ⟨1 / 2, 0⟩).a.transform.IsRigid ∧
    (cpGrooveJoint.preStep cpMathQ cpPrivateStd (grooveWorld cpMathQ ⟨1 / 2, 0⟩) 1).joint.clamp = 0 ∧
    cpvdot
      (cpGrooveJoint.applyImpulse cpMathQ cpPrivateStd
        { joint := { (cpGrooveJoint.preStep cpMathQ cpPrivateStd (grooveWorld cpMathQ ⟨1 / 2, 0⟩) 1).joint with
                     jAcc := ⟨0, 1⟩ },
          a := cpBodyAt ⟨0, 0⟩, b := cpBodyAt ⟨1 / 2, 0⟩ } 1).joint.jAcc
      (cpvsub
        (cpTransformPoint (grooveWorld cpMathQ ⟨1 / 2, 0⟩).a.transform
          (grooveWorld cpMathQ ⟨1 / 2, 0⟩).joint.grv_b)
        (cpTransformPoint (grooveWorld cpMathQ ⟨1 / 2, 0⟩).a.transform
          (grooveWorld cpMathQ ⟨1 / 2, 0⟩).joint.grv_a)) = 0 := by
  have h1 : (grooveWorld cpMathQ ⟨1 / 2, 0⟩).joint.grv_n
      = cpvperp (cpvnormalize cpMathQ (cpvsub (grooveWorld cpMathQ ⟨1 / 2, 0⟩).joint.grv_b
          (grooveWorld cpMathQ ⟨1 / 2, 0⟩).joint.grv_a)) := rfl
  have h2 : (grooveWorld cpMathQ ⟨1 / 2, 0⟩).a.transform.IsRigid := by
    norm_num [grooveWorld, cpBodyAt, cpTransform.IsRigid]
  have h3 : (cpGrooveJoint.preStep cpMathQ cpPrivateStd (grooveWorld cpMathQ ⟨1 / 2, 0⟩) 1).joint.clamp = 0 := by
    norm_num [cpGrooveJoint.preStep, grooveWorld, cpGrooveJoint.cpGrooveJointNew,
      cpGrooveJoint.cpGrooveJointInit, cpGrooveJoint.cpGrooveJointAlloc, cpBodyAt,
      cpTransformPoint, cpTransformVect, cpvperp, cpvnormalize, cpvlength, cpvmult, cpvsub,
      cpvadd, cpvdot, cpvcross, cpv, cpvzero, cpMathQ, rat_sqrt_one]
  exact ⟨h1, h2, h3,
    groove_applyImpulse_no_axis_component ℚ cpMathQ cpPrivateStd (grooveWorld cpMathQ ⟨1 / 2, 0⟩) 1
      ⟨0, 1⟩ (cpBodyAt ⟨0, 0⟩) (cpBodyAt ⟨1 / 2, 0⟩) h1 h2 h3⟩

/-- C3: with an exact square root and `maxForce * dt ≥ 0`, after the groove
joint's apply-impulse the accumulated impulse satisfies
`jAcc . jAcc ≤ (maxForce * dt)^2`, and get-impulse reports at most
`maxForce * dt`, for every joint state (any clamp, previous `jAcc`, velocities). -/
theorem groove_applyImpulse_jAcc_le_maxForce (α : Type) [LinearOrderedField α]
    (M : cpMath α) (P : cpPrivate α) (hM : M.Exact) (s : cpWorld (cpGrooveJoint α) α) (dt : α)
    (hF : 0 ≤ s.joint.constraint.maxForce * dt) :
    cpvdot (cpGrooveJoint.applyImpulse M P s dt).joint.jAcc (cpGrooveJoint.applyImpulse M P s dt).joint.jAcc
        ≤ (s.joint.constraint.maxForce * dt) ^ 2 ∧
    cpGrooveJoint.getImpulse M (cpGrooveJoint.applyImpulse M P s dt).joint ≤ s.joint.constraint.maxForce * dt := by
  have h1 : cpvdot (cpGrooveJoint.applyImpulse M P s dt).joint.jAcc (cpGrooveJoint.applyImpulse M P s dt).joint.jAcc
      ≤ (s.joint.constraint.maxForce * dt) * (s.joint.constraint.maxForce * dt) :=
    cpvclamp_lengthsq_le M hM _ _ hF
  refine ⟨by rw [pow_two]; exact h1, ?_⟩
  exact cpvlength_le_of_lengthsq_le M hM _ _ hF h1

/-- Witness for C3 over the reals, with the real square root: the groove
`(0,0)-(1,0)` with the anchor at `(1/2, 0)`, `maxForce = 1000`, `dt = 1`. -/
theorem groove_applyImpulse_jAcc_le_maxForce_witness :
    (⟨Real.sqrt, fun x y => x ^ y, 1 / 2 ^ 1022⟩ : cpMath ℝ).Exact ∧
    (0 : ℝ) ≤ (grooveWorld (⟨Real.sqrt, fun x y => x ^ y, 1 / 2 ^ 1022⟩ : cpMath ℝ)
        ⟨1 / 2, 0⟩).joint.constraint.maxForce * 1 ∧
    cpvdot
      (cpGrooveJoint.applyImpulse (⟨Real.sqrt, fun x y => x ^ y, 1 / 2 ^ 1022⟩ : cpMath ℝ) cpPrivateStd
        (grooveWorld (⟨Real.sqrt, fun x y => x ^ y, 1 / 2 ^ 1022⟩ : cpMath ℝ) ⟨1 / 2, 0⟩)
        1).joint.jAcc
      (cpGrooveJoint.applyImpulse (⟨Real.sqrt, fun x y => x ^ y, 1 / 2 ^ 1022⟩ : cpMath ℝ) cpPrivateStd
        (grooveWorld (⟨Real.sqrt, fun x y => x ^ y, 1 / 2 ^ 1022⟩ : cpMath ℝ) ⟨1 / 2, 0⟩)
        1).joint.jAcc
      ≤ ((grooveWorld (⟨Real.sqrt, fun x y => x ^ y, 1 / 2 ^ 1022⟩ : cpMath ℝ)
          ⟨1 / 2, 0⟩).joint.constraint.maxForce * 1) ^ 2 ∧
    cpGrooveJoint.getImpulse (⟨Real.sqrt, fun x y => x ^ y, 1 / 2 ^ 1022⟩ : cpMath ℝ)
      (cpGrooveJoint.applyImpulse (⟨Real.sqrt, fun x y => x ^ y, 1 / 2 ^ 1022⟩ : cpMath ℝ) cpPrivateStd
        (grooveWorld (⟨Real.sqrt, fun x y => x ^ y, 1 / 2 ^ 1022⟩ : cpMath ℝ) ⟨1 / 2, 0⟩)
        1).joint
      ≤ (grooveWorld (⟨Real.sqrt, fun x y => x ^ y, 1 / 2 ^ 1022⟩ : cpMath ℝ)
          ⟨1 / 2, 0⟩).joint.constraint.maxForce * 1 := by
  have hM : (⟨Real.sqrt, fun x y => x ^ y, 1 / 2 ^ 1022⟩ : cpMath ℝ).Exact :=
    ⟨Real.sqrt_nonneg, fun x hx => Real.mul_self_sqrt hx, by norm_num⟩
  have hF : (0 : ℝ) ≤ (grooveWorld (⟨Real.sqrt, fun x y => x ^ y, 1 / 2 ^ 1022⟩ : cpMath ℝ)
        ⟨1 / 2, 0⟩).joint.constraint.maxForce * 1 := by
    norm_num [grooveWorld, cpGrooveJoint.cpGrooveJointNew, cpGrooveJoint.cpGrooveJointInit,
      cpConstraintEx]
  exact ⟨hM, hF, groove_applyImpulse_jAcc_le_maxForce ℝ _ cpPrivateStd hM _ 1 hF⟩

/-- C4: for a ratchet joint with `ratchet ≠ 0`, `bias ≠ 0` and `maxForce * dt ≥ 0`,
after apply-impulse `0 ≤ jAcc * ratchet ≤ maxForce * dt * |ratchet|` and
`|jAcc| ≤ maxForce * dt` (so get-impulse is at most `maxForce * dt`), for every
previous `jAcc` and every pair of angular velocities. -/
theorem ratchet_applyImpulse_jAcc_bounds (α : Type) [LinearOrderedField α]
    (s : cpWorld (cpRatchetJoint α) α) (dt : α)
    (hr : s.joint.ratchet ≠ 0) (hb : s.joint.bias ≠ 0)
    (hF : 0 ≤ s.joint.constraint.maxForce * dt) :
    0 ≤ (cpRatchetJoint.applyImpulse s dt).joint.jAcc * s.joint.ratchet ∧
    (cpRatchetJoint.applyImpulse s dt).joint.jAcc * s.joint.ratchet
      ≤ s.joint.constraint.maxForce * dt * |s.joint.ratchet| ∧
    |(cpRatchetJoint.applyImpulse s dt).joint.jAcc| ≤ s.joint.constraint.maxForce * dt ∧
    cpRatchetJoint.getImpulse (cpRatchetJoint.applyImpulse s dt).joint ≤ s.joint.constraint.maxForce * dt := by
  have habs : 0 < |s.joint.ratchet| := abs_pos.mpr hr
  have hhi : 0 ≤ s.joint.constraint.maxForce * dt * |s.joint.ratchet| := by
    exact mul_nonneg hF habs.le
  have hj : (cpRatchetJoint.applyImpulse s dt).joint.jAcc
      = cpfclamp ((s.joint.jAcc + -(s.joint.bias + (s.b.w - s.a.w)) * s.joint.iSum)
          * s.joint.ratchet) 0 (s.joint.constraint.maxForce * dt * |s.joint.ratchet|)
        / s.joint.ratchet := by
    simp [cpRatchetJoint.applyImpulse, hb, cpfabs_eq_abs]
  have h0 := le_cpfclamp ((s.joint.jAcc + -(s.joint.bias + (s.b.w - s.a.w)) * s.joint.iSum)
          * s.joint.ratchet) 0 (s.joint.constraint.maxForce * dt * |s.joint.ratchet|) hhi
  have h1 := cpfclamp_le ((s.joint.jAcc + -(s.joint.bias + (s.b.w - s.a.w)) * s.joint.iSum)
          * s.joint.ratchet) 0 (s.joint.constraint.maxForce * dt * |s.joint.ratchet|)
  have hmul : (cpRatchetJoint.applyImpulse s dt).joint.jAcc * s.joint.ratchet
      = cpfclamp ((s.joint.jAcc + -(s.joint.bias + (s.b.w - s.a.w)) * s.joint.iSum)
          * s.joint.ratchet) 0 (s.joint.constraint.maxForce * dt * |s.joint.ratchet|) := by
    rw [hj, div_mul_cancel₀ _ hr]
  have habsj : |(cpRatchetJoint.applyImpulse s dt).joint.jAcc| ≤ s.joint.constraint.maxForce * dt := by
    rw [hj, abs_div, abs_of_nonneg h0, div_le_iff₀ habs]
    exact h1
  refine ⟨by rw [hmul]; exact h0, by rw [hmul]; exact h1, habsj, ?_⟩
  rw [cpRatchetJoint.getImpulse, cpfabs_eq_abs]
  exact habsj

/-- C5: for a ratchet joint whose bias is zero, apply-impulse returns the joint
and both bodies unchanged, for every `dt`. -/
theorem ratchet_applyImpulse_bias_zero_noop (α : Type) [LinearOrderedField α]
    (s : cpWorld (cpRatchetJoint α) α) (dt : α) (hb : s.joint.bias = 0) :
    cpRatchetJoint.applyImpulse s dt = s := by
  simp [cpRatchetJoint.applyImpulse, hb]

/-- C6 fails as stated: with `maxBias = -1` (ratchet = 1, dt = 1, latch angle equal
to the relative angle 0, so not engaged) pre-step leaves `bias = -1` and keeps
the previous `jAcc = 5`. -/
theorem ratchet_preStep_negative_maxBias_keeps_jAcc :
    (ratchetWorld (⟨1000, 1 / 2, -1⟩ : cpConstraint ℚ) 0 1 0 5).joint.ratchet ≠ 0 ∧
    (0 : ℚ) < 1 ∧
    ((ratchetWorld (⟨1000, 1 / 2, -1⟩ : cpConstraint ℚ) 0 1 0 5).joint.angle
      - ((ratchetWorld (⟨1000, 1 / 2, -1⟩ : cpConstraint ℚ) 0 1 0 5).b.a
        - (ratchetWorld (⟨1000, 1 / 2, -1⟩ : cpConstraint ℚ) 0 1 0 5).a.a))
      * (ratchetWorld (⟨1000, 1 / 2, -1⟩ : cpConstraint ℚ) 0 1 0 5).joint.ratchet ≤ 0 ∧
    (cpRatchetJoint.preStep cpMathQ (ratchetWorld (⟨1000, 1 / 2, -1⟩ : cpConstraint ℚ) 0 1 0 5) 1).joint.bias = -1 ∧
    (cpRatchetJoint.preStep cpMathQ (ratchetWorld (⟨1000, 1 / 2, -1⟩ : cpConstraint ℚ) 0 1 0 5) 1).joint.jAcc = 5 ∧
    cpRatchetJoint.getImpulse (cpRatchetJoint.preStep cpMathQ (ratchetWorld (⟨1000, 1 / 2, -1⟩ : cpConstraint ℚ) 0 1 0 5) 1).joint
      = 5 := by
  refine ⟨?_, ?_, ?_, ?_, ?_, ?_⟩ <;>
  norm_num [cpRatchetJoint.preStep, cpRatchetJoint.getImpulse, ratchetWorld,
    cpRatchetJoint.cpRatchetJointNew, cpRatchetJoint.cpRatchetJointInit,
    cpRatchetJoint.cpRatchetJointAlloc, cpBodyAt, cpfclamp, cpfmin, cpfmax, cpfabs, bias_coef,
    cpMathQ, cpffloor]

/-- C6 (as amended): for a ratchet joint with `maxBias ≥ 0` (`ratchet ≠ 0`, `dt > 0`)
that is not engaged at pre-step, `(angle - (b.a - a.a)) * ratchet ≤ 0`, pre-step
leaves `bias = 0` and resets `jAcc` to 0 whatever it was, so get-impulse returns
0 afterwards. -/
theorem ratchet_preStep_passed_resets (α : Type) [LinearOrderedField α] [FloorRing α]
    (M : cpMath α) (s : cpWorld (cpRatchetJoint α) α) (dt : α)
    (_hr : s.joint.ratchet ≠ 0) (_hdt : 0 < dt)
    (hpass : (s.joint.angle - (s.b.a - s.a.a)) * s.joint.ratchet ≤ 0)
    (hmb : 0 ≤ s.joint.constraint.maxBias) :
    (cpRatchetJoint.preStep M s dt).joint.bias = 0 ∧ (cpRatchetJoint.preStep M s dt).joint.jAcc = 0 ∧
    cpRatchetJoint.getImpulse (cpRatchetJoint.preStep M s dt).joint = 0 := by
  have hc : cpfclamp (0 : α) (-s.joint.constraint.maxBias) s.joint.constraint.maxBias = 0 :=
    cpfclamp_eq_self 0 _ _ (by linarith) hmb
  have hb : (cpRatchetJoint.preStep M s dt).joint.bias = 0 := by
    simp [cpRatchetJoint.preStep, not_lt.mpr hpass, hc]
  have hj : (cpRatchetJoint.preStep M s dt).joint.jAcc = 0 := by
    simp [cpRatchetJoint.preStep, not_lt.mpr hpass, hc]
  refine ⟨hb, hj, ?_⟩
  rw [cpRatchetJoint.getImpulse, hj, cpfabs_eq_abs, abs_zero]

/-- Witness for C6 (as amended): `maxBias = 1000`, ratchet = 1, latch angle equal
to the relative angle 0, previous `jAcc = 5`, `dt = 1`. -/
theorem ratchet_preStep_passed_resets_witness :
    (ratchetWorld (cpConstraintEx : cpConstraint ℚ) 0 1 0 5).joint.ratchet ≠ 0 ∧
    (0 : ℚ) < 1 ∧
    ((ratchetWorld (cpConstraintEx : cpConstraint ℚ) 0 1 0 5).joint.angle
      - ((ratchetWorld (cpConstraintEx : cpConstraint ℚ) 0 1 0 5).b.a
        - (ratchetWorld (cpConstraintEx : cpConstraint ℚ) 0 1 0 5).a.a))
      * (ratchetWorld (cpConstraintEx : cpConstraint ℚ) 0 1 0 5).joint.ratchet ≤ 0 ∧
    (0 : ℚ) ≤ (ratchetWorld (cpConstraintEx : cpConstraint ℚ) 0 1 0 5).joint.constraint.maxBias ∧
    (ratchetWorld (cpConstraintEx : cpConstraint ℚ) 0 1 0 5).joint.jAcc = 5 ∧
    (cpRatchetJoint.preStep cpMathQ (ratchetWorld (cpConstraintEx : cpConstraint ℚ) 0 1 0 5) 1).joint.bias = 0 ∧
    (cpRatchetJoint.preStep cpMathQ (ratchetWorld (cpConstraintEx : cpConstraint ℚ) 0 1 0 5) 1).joint.jAcc = 0 ∧
    cpRatchetJoint.getImpulse (cpRatchetJoint.preStep cpMathQ (ratchetWorld (cpConstraintEx : cpConstraint ℚ) 0 1 0 5) 1).joint
      = 0 :=
  ⟨by norm_num [ratchetWorld, cpRatchetJoint.cpRatchetJointNew, cpRatchetJoint.cpRatchetJointInit],
   by norm_num,
   by norm_num [ratchetWorld, cpRatchetJoint.cpRatchetJointNew, cpRatchetJoint.cpRatchetJointInit,
        cpBodyAt],
   by norm_num [ratchetWorld, cpRatchetJoint.cpRatchetJointNew, cpRatchetJoint.cpRatchetJointInit,
        cpConstraintEx],
   rfl,
   ratchet_preStep_passed_resets ℚ cpMathQ (ratchetWorld cpConstraintEx 0 1 0 5) 1
     (by norm_num [ratchetWorld, cpRatchetJoint.cpRatchetJointNew,
           cpRatchetJoint.cpRatchetJointInit])
     (by norm_num)
     (by norm_num [ratchetWorld, cpRatchetJoint.cpRatchetJointNew,
           cpRatchetJoint.cpRatchetJointInit, cpBodyAt])
     (by norm_num [ratchetWorld, cpRatchetJoint.cpRatchetJointNew,
           cpRatchetJoint.cpRatchetJointInit, cpConstraintEx])⟩

/-- C7 fails as stated: a joint made with `phase = -9/10`, `ratchet = 1` between
bodies at relative angle 0 takes the tooth-passed branch and latches at `-9/10`,
at distance `9/10 > |ratchet|/2` from the relative angle, although the tooth
`phase + 1 * ratchet = 1/10` is nearer. -/
theorem ratchet_preStep_latch_not_nearest :
    (ratchetWorld (cpConstraintEx : cpConstraint ℚ) (-9 / 10) 1 0 0).joint.ratchet ≠ 0 ∧
    ¬ ((ratchetWorld (cpConstraintEx : cpConstraint ℚ) (-9 / 10) 1 0 0).joint.angle
        - ((ratchetWorld (cpConstraintEx : cpConstraint ℚ) (-9 / 10) 1 0 0).b.a
          - (ratchetWorld (cpConstraintEx : cpConstraint ℚ) (-9 / 10) 1 0 0).a.a))
        * (ratchetWorld (cpConstraintEx : cpConstraint ℚ) (-9 / 10) 1 0 0).joint.ratchet > 0 ∧
    (cpRatchetJoint.preStep cpMathQ (ratchetWorld (cpConstraintEx : cpConstraint ℚ) (-9 / 10) 1 0 0) 1).joint.angle
      = -9 / 10 ∧
    ¬ |((ratchetWorld (cpConstraintEx : cpConstraint ℚ) (-9 / 10) 1 0 0).b.a
          - (ratchetWorld (cpConstraintEx : cpConstraint ℚ) (-9 / 10) 1 0 0).a.a)
        - (cpRatchetJoint.preStep cpMathQ
            (ratchetWorld (cpConstraintEx : cpConstraint ℚ) (-9 / 10) 1 0 0) 1).joint.angle|
      ≤ |(ratchetWorld (cpConstraintEx : cpConstraint ℚ) (-9 / 10) 1 0 0).joint.ratchet| / 2 := by
  have h : (cpRatchetJoint.preStep cpMathQ
      (ratchetWorld (cpConstraintEx : cpConstraint ℚ) (-9 / 10) 1 0 0) 1).joint.angle = -9 / 10 := by
    norm_num [cpRatchetJoint.preStep, ratchetWorld, cpRatchetJoint.cpRatchetJointNew,
      cpRatchetJoint.cpRatchetJointInit, cpRatchetJoint.cpRatchetJointAlloc, cpBodyAt, cpffloor]
  refine ⟨?_, ?_, h, ?_⟩
  · norm_num [ratchetWorld, cpRatchetJoint.cpRatchetJointNew, cpRatchetJoint.cpRatchetJointInit]
  · norm_num [ratchetWorld, cpRatchetJoint.cpRatchetJointNew, cpRatchetJoint.cpRatchetJointInit,
      cpBodyAt]
  · rw [h]
    norm_num [ratchetWorld, cpRatchetJoint.cpRatchetJointNew, cpRatchetJoint.cpRatchetJointInit,
      cpBodyAt, abs_of_pos]

/-- C7 (as amended): for a ratchet joint with `ratchet ≠ 0`, when pre-step finds
that a tooth has been passed, the new latch angle is `phase + k * ratchet` with
`k = floor((delta - phase) / ratchet)`, `delta = b.a - a.a`: the tooth at or
just before `delta`, so that `|delta - angle| < |ratchet|`. -/
theorem ratchet_preStep_latch_floor (α : Type) [LinearOrderedField α] [FloorRing α]
    (M : cpMath α) (s : cpWorld (cpRatchetJoint α) α) (dt : α)
    (hr : s.joint.ratchet ≠ 0)
    (hpass : (s.joint.angle - (s.b.a - s.a.a)) * s.joint.ratchet ≤ 0) :
    (cpRatchetJoint.preStep M s dt).joint.angle
      = s.joint.phase
        + ((⌊((s.b.a - s.a.a) - s.joint.phase) / s.joint.ratchet⌋ : ℤ) : α) * s.joint.ratchet ∧
    |(s.b.a - s.a.a) - (cpRatchetJoint.preStep M s dt).joint.angle| < |s.joint.ratchet| := by
  have ha : (cpRatchetJoint.preStep M s dt).joint.angle
      = s.joint.phase
        + ((⌊((s.b.a - s.a.a) - s.joint.phase) / s.joint.ratchet⌋ : ℤ) : α)
          * s.joint.ratchet := by
    have : (cpRatchetJoint.preStep M s dt).joint.angle
        = cpffloor (((s.b.a - s.a.a) - s.joint.phase) / s.joint.ratchet) * s.joint.ratchet
          + s.joint.phase := by
      unfold cpRatchetJoint.preStep
      simp only [not_lt.mpr hpass, gt_iff_lt, if_false]
      split_ifs <;> rfl
    rw [this, cpffloor]
    ring
  refine ⟨ha, ?_⟩
  have hd : (s.b.a - s.a.a) - (cpRatchetJoint.preStep M s dt).joint.angle
      = Int.fract (((s.b.a - s.a.a) - s.joint.phase) / s.joint.ratchet) * s.joint.ratchet := by
    rw [ha, Int.fract]
    field_simp
    ring
  rw [hd, abs_mul, abs_of_nonneg (Int.fract_nonneg _)]
  have h1 := Int.fract_lt_one (((s.b.a - s.a.a) - s.joint.phase) / s.joint.ratchet)
  have h2 : 0 < |s.joint.ratchet| := abs_pos.mpr hr
  nlinarith

/-- Witness for C7 (as amended): `phase = -9/10`, `ratchet = 1`, relative angle 0:
the new latch angle is `-9/10 + 0 * 1`, at distance `9/10 < 1` from 0. -/
theorem ratchet_preStep_latch_floor_witness :
    (ratchetWorld (cpConstraintEx : cpConstraint ℚ) (-9 / 10) 1 0 0).joint.ratchet ≠ 0 ∧
    ((ratchetWorld (cpConstraintEx : cpConstraint ℚ) (-9 / 10) 1 0 0).joint.angle
        - ((ratchetWorld (cpConstraintEx : cpConstraint ℚ) (-9 / 10) 1 0 0).b.a
          - (ratchetWorld (cpConstraintEx : cpConstraint ℚ) (-9 / 10) 1 0 0).a.a))
        * (ratchetWorld (cpConstraintEx : cpConstraint ℚ) (-9 / 10) 1 0 0).joint.ratchet ≤ 0 ∧
    (cpRatchetJoint.preStep cpMathQ (ratchetWorld (cpConstraintEx : cpConstraint ℚ) (-9 / 10) 1 0 0) 1).joint.angle
      = (ratchetWorld (cpConstraintEx : cpConstraint ℚ) (-9 / 10) 1 0 0).joint.phase
        + ((⌊(((ratchetWorld (cpConstraintEx : cpConstraint ℚ) (-9 / 10) 1 0 0).b.a
                - (ratchetWorld (cpConstraintEx : cpConstraint ℚ) (-9 / 10) 1 0 0).a.a)
              - (ratchetWorld (cpConstraintEx : cpConstraint ℚ) (-9 / 10) 1 0 0).joint.phase)
            / (ratchetWorld (cpConstraintEx : cpConstraint ℚ) (-9 / 10) 1 0 0).joint.ratchet⌋ : ℤ) : ℚ)
          * (ratchetWorld (cpConstraintEx : cpConstraint ℚ) (-9 / 10) 1 0 0).joint.ratchet ∧
    |((ratchetWorld (cpConstraintEx : cpConstraint ℚ) (-9 / 10) 1 0 0).b.a
          - (ratchetWorld (cpConstraintEx : cpConstraint ℚ) (-9 / 10) 1 0 0).a.a)
        - (cpRatchetJoint.preStep cpMathQ
            (ratchetWorld (cpConstraintEx : cpConstraint ℚ) (-9 / 10) 1 0 0) 1).joint.angle|
      < |(ratchetWorld (cpConstraintEx : cpConstraint ℚ) (-9 / 10) 1 0 0).joint.ratchet| :=
  ⟨by norm_num [ratchetWorld, cpRatchetJoint.cpRatchetJointNew, cpRatchetJoint.cpRatchetJointInit],
   by norm_num [ratchetWorld, cpRatchetJoint.cpRatchetJointNew, cpRatchetJoint.cpRatchetJointInit,
        cpBodyAt],
   ratchet_preStep_latch_floor ℚ cpMathQ (ratchetWorld cpConstraintEx (-9 / 10) 1 0 0) 1
     (by norm_num [ratchetWorld, cpRatchetJoint.cpRatchetJointNew,
           cpRatchetJoint.cpRatchetJointInit])
     (by norm_num [ratchetWorld, cpRatchetJoint.cpRatchetJointNew,
           cpRatchetJoint.cpRatchetJointInit, cpBodyAt])⟩

/-- Witness for C4: the joint `ratchet = 1`, latch angle 1 at relative angle 0
(engaged) after pre-step with `dt = 1`, where `bias = -1/2`; `maxForce = 1000`. -/
theorem ratchet_applyImpulse_jAcc_bounds_witness :
    (cpRatchetJoint.preStep cpMathQ (ratchetWorld cpConstraintEx 0 1 1 0) 1).joint.ratchet ≠ 0 ∧
    (cpRatchetJoint.preStep cpMathQ (ratchetWorld cpConstraintEx 0 1 1 0) 1).joint.bias = -1 / 2 ∧
    0 ≤ (cpRatchetJoint.preStep cpMathQ (ratchetWorld cpConstraintEx 0 1 1 0) 1).joint.constraint.maxForce * 1 ∧
    0 ≤ (cpRatchetJoint.applyImpulse (cpRatchetJoint.preStep cpMathQ (ratchetWorld cpConstraintEx 0 1 1 0) 1) 1).joint.jAcc
        * (cpRatchetJoint.preStep cpMathQ (ratchetWorld cpConstraintEx 0 1 1 0) 1).joint.ratchet ∧
    (cpRatchetJoint.applyImpulse (cpRatchetJoint.preStep cpMathQ (ratchetWorld cpConstraintEx 0 1 1 0) 1) 1).joint.jAcc
        * (cpRatchetJoint.preStep cpMathQ (ratchetWorld cpConstraintEx 0 1 1 0) 1).joint.ratchet
      ≤ (cpRatchetJoint.preStep cpMathQ (ratchetWorld cpConstraintEx 0 1 1 0) 1).joint.constraint.maxForce * 1
        * |(cpRatchetJoint.preStep cpMathQ (ratchetWorld cpConstraintEx 0 1 1 0) 1).joint.ratchet| ∧
    |(cpRatchetJoint.applyImpulse (cpRatchetJoint.preStep cpMathQ (ratchetWorld cpConstraintEx 0 1 1 0) 1) 1).joint.jAcc|
      ≤ (cpRatchetJoint.preStep cpMathQ (ratchetWorld cpConstraintEx 0 1 1 0) 1).joint.constraint.maxForce * 1 ∧
    cpRatchetJoint.getImpulse (cpRatchetJoint.applyImpulse (cpRatchetJoint.preStep cpMathQ (ratchetWorld cpConstraintEx 0 1 1 0) 1) 1).joint
      ≤ (cpRatchetJoint.preStep cpMathQ (ratchetWorld cpConstraintEx 0 1 1 0) 1).joint.constraint.maxForce * 1 := by
  have hr : (cpRatchetJoint.preStep cpMathQ (ratchetWorld cpConstraintEx 0 1 1 0) 1).joint.ratchet ≠ 0 := by
    norm_num [cpRatchetJoint.preStep, ratchetWorld, cpRatchetJoint.cpRatchetJointNew,
      cpRatchetJoint.cpRatchetJointInit, cpRatchetJoint.cpRatchetJointAlloc, cpBodyAt, cpfclamp,
      cpfmin, cpfmax, bias_coef, cpMathQ, cpConstraintEx]
  have hb : (cpRatchetJoint.preStep cpMathQ (ratchetWorld cpConstraintEx 0 1 1 0) 1).joint.bias = -1 / 2 := by
    norm_num [cpRatchetJoint.preStep, ratchetWorld, cpRatchetJoint.cpRatchetJointNew,
      cpRatchetJoint.cpRatchetJointInit, cpRatchetJoint.cpRatchetJointAlloc, cpBodyAt, cpfclamp,
      cpfmin, cpfmax, bias_coef, cpMathQ, cpConstraintEx]
  have hF : 0 ≤ (cpRatchetJoint.preStep cpMathQ
      (ratchetWorld cpConstraintEx 0 1 1 0) 1).joint.constraint.maxForce * 1 := by
    norm_num [cpRatchetJoint.preStep, ratchetWorld, cpRatchetJoint.cpRatchetJointNew,
      cpRatchetJoint.cpRatchetJointInit, cpRatchetJoint.cpRatchetJointAlloc, cpBodyAt, cpfclamp,
      cpfmin, cpfmax, bias_coef, cpMathQ, cpConstraintEx]
  exact ⟨hr, hb, hF,
    ratchet_applyImpulse_jAcc_bounds ℚ (cpRatchetJoint.preStep cpMathQ (ratchetWorld cpConstraintEx 0 1 1 0) 1) 1
      hr (by rw [hb]; norm_num) hF⟩

/-- Witness for C5: a freshly made joint (`bias = 0`) with previous `jAcc = 5`. -/
theorem ratchet_applyImpulse_bias_zero_noop_witness :
    (ratchetWorld (cpConstraintEx : cpConstraint ℚ) 0 1 0 5).joint.bias = 0 ∧
    cpRatchetJoint.applyImpulse (ratchetWorld (cpConstraintEx : cpConstraint ℚ) 0 1 0 5) 1
      = ratchetWorld (cpConstraintEx : cpConstraint ℚ) 0 1 0 5 :=
  ⟨rfl, ratchet_applyImpulse_bias_zero_noop ℚ (ratchetWorld cpConstraintEx 0 1 0 5) 1 rfl⟩

/-- C8: pre-step is idempotent for both joint kinds: with unchanged bodies, the
state after two pre-steps in a row equals the state after one (joint fields and
bodies alike), for every groove joint, every ratchet joint and every `dt`. -/
theorem preStep_idempotent (α : Type) [LinearOrderedField α] [FloorRing α]
    (M : cpMath α) (P : cpPrivate α) (sg : cpWorld (cpGrooveJoint α) α)
    (sr : cpWorld (cpRatchetJoint α) α) (dt : α) :
    cpGrooveJoint.preStep M P (cpGrooveJoint.preStep M P sg dt) dt
      = cpGrooveJoint.preStep M P sg dt ∧
    cpRatchetJoint.preStep M (cpRatchetJoint.preStep M sr dt) dt
      = cpRatchetJoint.preStep M sr dt := by
  constructor
  · unfold cpGrooveJoint.preStep
    simp only
    split_ifs <;> rfl
  · by_cases h : (sr.joint.angle - (sr.b.a - sr.a.a)) * sr.joint.ratchet > 0
    · unfold cpRatchetJoint.preStep
      simp only [h, if_true]
      split_ifs <;> simp_all
    · have key := floor_latch_not_engaged (sr.b.a - sr.a.a) sr.joint.phase sr.joint.ratchet
      unfold cpRatchetJoint.preStep
      simp only [h, if_false]
      split_ifs <;> first | (exfalso; linarith) | simp_all

/-- C9: pre-step does not mutate the bodies: for every groove joint, every ratchet
joint and every `dt`, body A and body B (velocity `v`, angular velocity `w`,
position, angle, inverse mass and moment) are the same after pre-step. -/
theorem preStep_bodies_unchanged (α : Type) [LinearOrderedField α] [FloorRing α]
    (M : cpMath α) (P : cpPrivate α) (sg : cpWorld (cpGrooveJoint α) α)
    (sr : cpWorld (cpRatchetJoint α) α) (dt : α) :
    ((cpGrooveJoint.preStep M P sg dt).a = sg.a ∧ (cpGrooveJoint.preStep M P sg dt).b = sg.b) ∧
    ((cpRatchetJoint.preStep M sr dt).a = sr.a ∧ (cpRatchetJoint.preStep M sr dt).b = sr.b) :=
  ⟨⟨rfl, rfl⟩, ⟨rfl, rfl⟩⟩

/-- C10 fails as stated: a ratchet joint (`ratchet = 1`, `phase = 0`) whose latch
angle is `-3/2` while the relative angle is 0 has passed a tooth, and pre-step
overwrites the field `angle` with 0. -/
theorem ratchet_preStep_changes_angle :
    (ratchetWorld (cpConstraintEx : cpConstraint ℚ) 0 1 (-3 / 2) 0).joint.angle = -3 / 2 ∧
    (cpRatchetJoint.preStep cpMathQ (ratchetWorld (cpConstraintEx : cpConstraint ℚ) 0 1 (-3 / 2) 0) 1).joint.angle
      = 0 ∧
    (cpRatchetJoint.preStep cpMathQ (ratchetWorld (cpConstraintEx : cpConstraint ℚ) 0 1 (-3 / 2) 0) 1).joint.angle
      ≠ (ratchetWorld (cpConstraintEx : cpConstraint ℚ) 0 1 (-3 / 2) 0).joint.angle := by
  refine ⟨rfl, ?_, ?_⟩ <;>
  norm_num [cpRatchetJoint.preStep, ratchetWorld, cpRatchetJoint.cpRatchetJointNew,
    cpRatchetJoint.cpRatchetJointInit, cpRatchetJoint.cpRatchetJointAlloc, cpBodyAt, cpffloor]

/-- C10 (as amended): the ratchet joint's pre-step leaves `phase`, `ratchet` and
the tuning header unchanged, and leaves `angle` unchanged when the joint is
engaged, `(angle - (b.a - a.a)) * ratchet > 0`; otherwise it sets `angle` to
`floor((delta - phase) / ratchet) * ratchet + phase`. The groove joint's
pre-step leaves `grv_a`, `grv_b`, `anchorB` (and `grv_n`, `jAcc`, the tuning
header) unchanged. -/
theorem preStep_geometry_frame (α : Type) [LinearOrderedField α] [FloorRing α]
    (M : cpMath α) (P : cpPrivate α) (sg : cpWorld (cpGrooveJoint α) α)
    (sr : cpWorld (cpRatchetJoint α) α) (dt : α) :
    ((cpRatchetJoint.preStep M sr dt).joint.phase = sr.joint.phase ∧
     (cpRatchetJoint.preStep M sr dt).joint.ratchet = sr.joint.ratchet ∧
     (cpRatchetJoint.preStep M sr dt).joint.constraint = sr.joint.constraint ∧
     (cpRatchetJoint.preStep M sr dt).joint.angle
       = if (sr.joint.angle - (sr.b.a - sr.a.a)) * sr.joint.ratchet > 0 then sr.joint.angle
         else cpffloor (((sr.b.a - sr.a.a) - sr.joint.phase) / sr.joint.ratchet)
                * sr.joint.ratchet + sr.joint.phase) ∧
    ((cpGrooveJoint.preStep M P sg dt).joint.grv_a = sg.joint.grv_a ∧
     (cpGrooveJoint.preStep M P sg dt).joint.grv_b = sg.joint.grv_b ∧
     (cpGrooveJoint.preStep M P sg dt).joint.anchorB = sg.joint.anchorB ∧
     (cpGrooveJoint.preStep M P sg dt).joint.grv_n = sg.joint.grv_n ∧
     (cpGrooveJoint.preStep M P sg dt).joint.jAcc = sg.joint.jAcc ∧
     (cpGrooveJoint.preStep M P sg dt).joint.constraint = sg.joint.constraint) := by
  constructor
  · unfold cpRatchetJoint.preStep
    simp only
    refine ⟨?_, ?_, ?_, ?_⟩ <;> split_ifs <;> rfl
  · unfold cpGrooveJoint.preStep
    simp only
    refine ⟨?_, ?_, ?_, ?_, ?_, ?_⟩ <;> split_ifs <;> rfl

/-- C11: warm-start consistency for the ratchet joint. Starting from
`jAcc = 0` (`ratchet ≠ 0`), after any finite sequence of apply-impulse calls
`a.w` has decreased by `jAcc * a.i_inv` and `b.w` has increased by
`jAcc * b.i_inv` for the final `jAcc`; apply-cached-impulse with `dt_coef = 1`
applied to the final joint and the initial bodies gives exactly the final
state; and apply-cached-impulse never changes the joint (so not `jAcc`). -/
theorem ratchet_warm_start_consistent (α : Type) [LinearOrderedField α]
    (s : cpWorld (cpRatchetJoint α) α) (dts : List α)
    (_hr : s.joint.ratchet ≠ 0) (h0 : s.joint.jAcc = 0) :
    (dts.foldl cpRatchetJoint.applyImpulse s).a.w
      = s.a.w - (dts.foldl cpRatchetJoint.applyImpulse s).joint.jAcc * s.a.i_inv ∧
    (dts.foldl cpRatchetJoint.applyImpulse s).b.w
      = s.b.w + (dts.foldl cpRatchetJoint.applyImpulse s).joint.jAcc * s.b.i_inv ∧
    cpRatchetJoint.applyCachedImpulse
        { joint := (dts.foldl cpRatchetJoint.applyImpulse s).joint, a := s.a, b := s.b } 1
      = dts.foldl cpRatchetJoint.applyImpulse s ∧
    (∀ (t : cpWorld (cpRatchetJoint α) α) (dt_coef : α),
      (cpRatchetJoint.applyCachedImpulse t dt_coef).joint = t.joint) := by
  obtain ⟨ha, hb⟩ := ratchet_applyImpulse_seq dts s
  rw [h0] at ha hb
  refine ⟨?_, ?_, ?_, fun t c => rfl⟩
  · rw [ha]
    simp
  · rw [hb]
    simp
  · unfold cpRatchetJoint.applyCachedImpulse
    simp only [mul_one]
    cases hfin : dts.foldl cpRatchetJoint.applyImpulse s with
    | mk j a b =>
      rw [hfin] at ha hb
      simp only at ha hb ⊢
      rw [ha, hb]
      simp

/-- Witness for C11: the engaged joint (`ratchet = 1`, latch angle 1 at relative
angle 0, `jAcc = 0`) after pre-step, then two apply-impulse calls with `dt = 1`. -/
theorem ratchet_warm_start_consistent_witness :
    (cpRatchetJoint.preStep cpMathQ (ratchetWorld cpConstraintEx 0 1 1 0) 1).joint.ratchet ≠ 0 ∧
    (cpRatchetJoint.preStep cpMathQ (ratchetWorld cpConstraintEx 0 1 1 0) 1).joint.jAcc = 0 ∧
    ([1, 1].foldl cpRatchetJoint.applyImpulse
        (cpRatchetJoint.preStep cpMathQ (ratchetWorld cpConstraintEx 0 1 1 0) 1)).a.w
      = (cpRatchetJoint.preStep cpMathQ (ratchetWorld cpConstraintEx 0 1 1 0) 1).a.w
        - ([1, 1].foldl cpRatchetJoint.applyImpulse
            (cpRatchetJoint.preStep cpMathQ (ratchetWorld cpConstraintEx 0 1 1 0) 1)).joint.jAcc
          * (cpRatchetJoint.preStep cpMathQ (ratchetWorld cpConstraintEx 0 1 1 0) 1).a.i_inv ∧
    ([1, 1].foldl cpRatchetJoint.applyImpulse
        (cpRatchetJoint.preStep cpMathQ (ratchetWorld cpConstraintEx 0 1 1 0) 1)).b.w
      = (cpRatchetJoint.preStep cpMathQ (ratchetWorld cpConstraintEx 0 1 1 0) 1).b.w
        + ([1, 1].foldl cpRatchetJoint.applyImpulse
            (cpRatchetJoint.preStep cpMathQ (ratchetWorld cpConstraintEx 0 1 1 0) 1)).joint.jAcc
          * (cpRatchetJoint.preStep cpMathQ (ratchetWorld cpConstraintEx 0 1 1 0) 1).b.i_inv ∧
    cpRatchetJoint.applyCachedImpulse
        { joint := ([1, 1].foldl cpRatchetJoint.applyImpulse
            (cpRatchetJoint.preStep cpMathQ (ratchetWorld cpConstraintEx 0 1 1 0) 1)).joint,
          a := (cpRatchetJoint.preStep cpMathQ (ratchetWorld cpConstraintEx 0 1 1 0) 1).a,
          b := (cpRatchetJoint.preStep cpMathQ (ratchetWorld cpConstraintEx 0 1 1 0) 1).b } 1
      = [1, 1].foldl cpRatchetJoint.applyImpulse
          (cpRatchetJoint.preStep cpMathQ (ratchetWorld cpConstraintEx 0 1 1 0) 1) ∧
    (∀ (t : cpWorld (cpRatchetJoint ℚ) ℚ) (dt_coef : ℚ),
      (cpRatchetJoint.applyCachedImpulse t dt_coef).joint = t.joint) := by
  have hr : (cpRatchetJoint.preStep cpMathQ
      (ratchetWorld cpConstraintEx 0 1 1 0) 1).joint.ratchet ≠ 0 := by
    norm_num [cpRatchetJoint.preStep, ratchetWorld, cpRatchetJoint.cpRatchetJointNew,
      cpRatchetJoint.cpRatchetJointInit, cpRatchetJoint.cpRatchetJointAlloc, cpBodyAt, cpfclamp,
      cpfmin, cpfmax, bias_coef, cpMathQ, cpConstraintEx]
  have h0 : (cpRatchetJoint.preStep cpMathQ
      (ratchetWorld cpConstraintEx 0 1 1 0) 1).joint.jAcc = 0 := by
    norm_num [cpRatchetJoint.preStep, ratchetWorld, cpRatchetJoint.cpRatchetJointNew,
      cpRatchetJoint.cpRatchetJointInit, cpRatchetJoint.cpRatchetJointAlloc, cpBodyAt, cpfclamp,
      cpfmin, cpfmax, bias_coef, cpMathQ, cpConstraintEx]
  exact ⟨hr, h0, ratchet_warm_start_consistent ℚ
    (cpRatchetJoint.preStep cpMathQ (ratchetWorld cpConstraintEx 0 1 1 0) 1) [1, 1] hr h0⟩

/-- C12 fails as stated: `cpGrooveJointInit` called with `groove_a = groove_b = (1, 2)`
and `cpRatchetJointInit` called with `ratchet = 0` both return an initialised
joint. -/
theorem joint_init_degenerate_returns :
    cpGrooveJoint.cpGrooveJointInit cpMathQ cpGrooveJoint.cpGrooveJointAlloc cpConstraintEx
        ⟨1, 2⟩ ⟨1, 2⟩ ⟨3, 4⟩
      = { constraint := cpConstraintEx, grv_n := ⟨0, 0⟩, grv_a := ⟨1, 2⟩, grv_b := ⟨1, 2⟩,
          anchorB := ⟨3, 4⟩, grv_tn := ⟨0, 0⟩, clamp := 0, r1 := ⟨0, 0⟩, r2 := ⟨0, 0⟩,
          k := ⟨0, 0, 0, 0⟩, jAcc := ⟨0, 0⟩, bias := ⟨0, 0⟩ } ∧
    cpRatchetJoint.cpRatchetJointInit cpRatchetJoint.cpRatchetJointAlloc
        (cpConstraintEx : cpConstraint ℚ) (some (cpBodyAt ⟨0, 0⟩)) (some (cpBodyAt ⟨0, 0⟩)) (1 / 4) 0
      = { constraint := cpConstraintEx, angle := 0, phase := 1 / 4, ratchet := 0, iSum := 0,
          bias := 0, jAcc := 0 } := by
  constructor
  · norm_num [cpGrooveJoint.cpGrooveJointInit, cpGrooveJoint.cpGrooveJointAlloc, cpvperp,
      cpvnormalize, cpvmult, cpvsub, cpv, cpvzero]
  · norm_num [cpRatchetJoint.cpRatchetJointInit, cpRatchetJoint.cpRatchetJointAlloc, cpBodyAt]

/-- C12 (as amended): the constructors do not check their arguments.
`cpGrooveJointInit` called with `groove_a = groove_b = g` returns the joint with
`grv_a = grv_b = g`, the zero vector as normal `grv_n`, the given anchor and
header and `jAcc = 0`; `cpRatchetJointInit` called with `ratchet = 0` returns
the joint with `ratchet = 0`, the given phase and header, and the bodies'
relative angle as latch angle. -/
theorem joint_init_total (α : Type) [LinearOrderedField α] (M : cpMath α)
    (gj : cpGrooveJoint α) (rj : cpRatchetJoint α) (c : cpConstraint α) (g anchorB : cpVect α)
    (a b : cpBody α) (phase : α) :
    ((cpGrooveJoint.cpGrooveJointInit M gj c g g anchorB).grv_a = g ∧
     (cpGrooveJoint.cpGrooveJointInit M gj c g g anchorB).grv_b = g ∧
     (cpGrooveJoint.cpGrooveJointInit M gj c g g anchorB).grv_n = cpvzero ∧
     (cpGrooveJoint.cpGrooveJointInit M gj c g g anchorB).anchorB = anchorB ∧
     (cpGrooveJoint.cpGrooveJointInit M gj c g g anchorB).jAcc = cpvzero ∧
     (cpGrooveJoint.cpGrooveJointInit M gj c g g anchorB).constraint = c) ∧
    ((cpRatchetJoint.cpRatchetJointInit rj c (some a) (some b) phase 0).ratchet = 0 ∧
     (cpRatchetJoint.cpRatchetJointInit rj c (some a) (some b) phase 0).phase = phase ∧
     (cpRatchetJoint.cpRatchetJointInit rj c (some a) (some b) phase 0).angle = b.a - a.a ∧
     (cpRatchetJoint.cpRatchetJointInit rj c (some a) (some b) phase 0).constraint = c) := by
  refine ⟨⟨rfl, rfl, ?_, rfl, rfl, rfl⟩, ⟨rfl, rfl, rfl, rfl⟩⟩
  simp [cpGrooveJoint.cpGrooveJointInit, cpvperp, cpvnormalize, cpvmult, cpvsub, cpv, cpvzero]

/-- C13: `cpvnormalize` does not divide by zero: with a non-negative square root
and `CPFLOAT_MIN > 0` the denominator `|v| + CPFLOAT_MIN` is strictly positive
for every `v`, and `cpvnormalize((0,0)) = (0,0)`. -/
theorem cpvnormalize_zero_safe (α : Type) [LinearOrderedField α] (M : cpMath α)
    (v : cpVect α) (hs : ∀ x, 0 ≤ M.cpfsqrt x) (hmin : 0 < M.CPFLOAT_MIN) :
    0 < cpvlength M v + M.CPFLOAT_MIN ∧ cpvnormalize M cpvzero = cpvzero := by
  constructor
  · have := hs (cpvdot v v)
    unfold cpvlength
    linarith
  · simp [cpvnormalize, cpvmult, cpv, cpvzero]

/-- Witness for C13 over the rationals (`Rat.sqrt`, `CPFLOAT_MIN = 2^-1022`), at
`v = (3, 4)`. -/
theorem cpvnormalize_zero_safe_witness :
    (∀ x, 0 ≤ cpMathQ.cpfsqrt x) ∧ 0 < cpMathQ.CPFLOAT_MIN ∧
    0 < cpvlength cpMathQ ⟨3, 4⟩ + cpMathQ.CPFLOAT_MIN ∧
    cpvnormalize cpMathQ cpvzero = cpvzero :=
  ⟨Rat.sqrt_nonneg, by norm_num [cpMathQ],
    cpvnormalize_zero_safe ℚ cpMathQ ⟨3, 4⟩ Rat.sqrt_nonneg (by norm_num [cpMathQ])⟩

/-- C15 fails as stated: for `v = (1, 0)` and `len = -2` the length 1 is not
`≤ len`, yet `cpvclamp` returns `v` unchanged, which is not
`cpvnormalize(v) * len`. -/
theorem cpvclamp_negative_len_keeps :
    ¬ cpvlength cpMathQ ⟨1, 0⟩ ≤ -2 ∧
    cpvclamp cpMathQ ⟨1, 0⟩ (-2) = ⟨1, 0⟩ ∧
    cpvclamp cpMathQ ⟨1, 0⟩ (-2) ≠ cpvmult (cpvnormalize cpMathQ ⟨1, 0⟩) (-2) := by
  have hc : cpvclamp cpMathQ ⟨1, 0⟩ (-2) = ⟨1, 0⟩ := by
    norm_num [cpvclamp, cpvdot]
  refine ⟨?_, hc, ?_⟩
  · norm_num [cpvlength, cpvdot, cpMathQ, rat_sqrt_one]
  · rw [hc]
    norm_num [cpvnormalize, cpvlength, cpvdot, cpvmult, cpv, cpMathQ, rat_sqrt_one]

/-- C15 (as amended): with an exact square root, for every `v` and every `len`,
`cpvclamp(v, len)` returns `v` unchanged when `|v| ≤ |len|` and
`cpvnormalize(v) * len` otherwise; for `len ≥ 0` the test is `|v| ≤ len`. -/
theorem cpvclamp_cases (α : Type) [LinearOrderedField α] (M : cpMath α) (hM : M.Exact)
    (v : cpVect α) (len : α) :
    cpvclamp M v len
      = (if cpvlength M v ≤ |len| then v else cpvmult (cpvnormalize M v) len) ∧
    (0 ≤ len → cpvclamp M v len
      = (if cpvlength M v ≤ len then v else cpvmult (cpvnormalize M v) len)) := by
  have h : cpvclamp M v len
      = (if cpvlength M v ≤ |len| then v else cpvmult (cpvnormalize M v) len) := by
    have hiff := cpvlength_le_iff M hM v |len| (abs_nonneg len)
    rw [abs_mul_abs_self] at hiff
    unfold cpvclamp
    by_cases hc : cpvdot v v > len * len
    · rw [if_pos hc, if_neg (fun hle => absurd (hiff.mp hle) (not_le.mpr hc))]
    · rw [if_neg hc, if_pos (hiff.mpr (not_lt.mp hc))]
  refine ⟨h, fun hlen => ?_⟩
  rw [h, abs_of_nonneg hlen]

/-- Witness for C15 (as amended) over the reals with the real square root, at
`v = (3, 4)`, `len = 1`. -/
theorem cpvclamp_cases_witness :
    (⟨Real.sqrt, fun x y => x ^ y, 1 / 2 ^ 1022⟩ : cpMath ℝ).Exact ∧
    (0 : ℝ) ≤ 1 ∧
    cpvclamp (⟨Real.sqrt, fun x y => x ^ y, 1 / 2 ^ 1022⟩ : cpMath ℝ) ⟨3, 4⟩ 1
      = (if cpvlength (⟨Real.sqrt, fun x y => x ^ y, 1 / 2 ^ 1022⟩ : cpMath ℝ) ⟨3, 4⟩ ≤ 1
          then (⟨3, 4⟩ : cpVect ℝ)
          else cpvmult
            (cpvnormalize (⟨Real.sqrt, fun x y => x ^ y, 1 / 2 ^ 1022⟩ : cpMath ℝ) ⟨3, 4⟩) 1) := by
  have hM : (⟨Real.sqrt, fun x y => x ^ y, 1 / 2 ^ 1022⟩ : cpMath ℝ).Exact :=
    ⟨Real.sqrt_nonneg, fun x hx => Real.mul_self_sqrt hx, by norm_num⟩
  exact ⟨hM, by norm_num, (cpvclamp_cases ℝ _ hM ⟨3, 4⟩ 1).2 (by norm_num)⟩

/-- C16: with an exact square root, for every `v` and every bound `L ≥ 0` the
length of `cpvclamp(v, L)` is at most `L`; and for `d ≥ 0`,
`cpvlerpconst(v1, v2, d)` lies at distance at most `d` from `v1` and equals
`v2` when `dist(v1, v2) ≤ d`. -/
theorem cpvclamp_length_le (α : Type) [LinearOrderedField α] (M : cpMath α) (hM : M.Exact)
    (v v1 v2 : cpVect α) (L d : α) (hL : 0 ≤ L) (hd : 0 ≤ d) :
    cpvlength M (cpvclamp M v L) ≤ L ∧
    cpvdist M v1 (cpvlerpconst M v1 v2 d) ≤ d ∧
    cpvdist M (cpvlerpconst M v1 v2 d) v1 ≤ d ∧
    (cpvdist M v1 v2 ≤ d → cpvlerpconst M v1 v2 d = v2) := by
  have hclamp : ∀ (u : cpVect α) (l : α), 0 ≤ l → cpvlength M (cpvclamp M u l) ≤ l :=
    fun u l hl => cpvlength_le_of_lengthsq_le M hM _ l hl (cpvclamp_lengthsq_le M hM u l hl)
  have hsub1 : cpvsub (cpvlerpconst M v1 v2 d) v1 = cpvclamp M (cpvsub v2 v1) d := by
    simp [cpvlerpconst, cpvsub, cpvadd, cpv]
  have hsub2 : cpvdot (cpvsub v1 (cpvlerpconst M v1 v2 d)) (cpvsub v1 (cpvlerpconst M v1 v2 d))
      = cpvdot (cpvsub (cpvlerpconst M v1 v2 d) v1) (cpvsub (cpvlerpconst M v1 v2 d) v1) := by
    simp only [cpvdot, cpvsub, cpv]
    ring
  refine ⟨hclamp v L hL, ?_, ?_, ?_⟩
  · rw [cpvdist, cpvlength, hsub2, hsub1]
    exact hclamp _ d hd
  · rw [cpvdist, hsub1]
    exact hclamp _ d hd
  · intro hle
    have h1 : cpvdot (cpvsub v1 v2) (cpvsub v1 v2) ≤ d * d :=
      (cpvlength_le_iff M hM _ d hd).mp hle
    have h2 : cpvdot (cpvsub v2 v1) (cpvsub v2 v1) = cpvdot (cpvsub v1 v2) (cpvsub v1 v2) := by
      simp only [cpvdot, cpvsub, cpv]
      ring
    have h3 : cpvclamp M (cpvsub v2 v1) d = cpvsub v2 v1 := by
      unfold cpvclamp
      rw [if_neg (not_lt.mpr (h2 ▸ h1))]
    rw [cpvlerpconst, h3]
    cases v2
    simp [cpvadd, cpvsub, cpv]

/-- Witness for C16 over the reals with the real square root: `v = (3, 4)`,
`L = 1`, and `cpvlerpconst` from `(0, 0)` towards `(3, 4)` by `d = 10`. -/
theorem cpvclamp_length_le_witness :
    (⟨Real.sqrt, fun x y => x ^ y, 1 / 2 ^ 1022⟩ : cpMath ℝ).Exact ∧
    (0 : ℝ) ≤ 1 ∧ (0 : ℝ) ≤ 10 ∧
    cpvlength (⟨Real.sqrt, fun x y => x ^ y, 1 / 2 ^ 1022⟩ : cpMath ℝ)
        (cpvclamp (⟨Real.sqrt, fun x y => x ^ y, 1 / 2 ^ 1022⟩ : cpMath ℝ) ⟨3, 4⟩ 1) ≤ 1 ∧
    cpvdist (⟨Real.sqrt, fun x y => x ^ y, 1 / 2 ^ 1022⟩ : cpMath ℝ) ⟨0, 0⟩
        (cpvlerpconst (⟨Real.sqrt, fun x y => x ^ y, 1 / 2 ^ 1022⟩ : cpMath ℝ)
          ⟨0, 0⟩ ⟨3, 4⟩ 10) ≤ 10 ∧
    cpvdist (⟨Real.sqrt, fun x y => x ^ y, 1 / 2 ^ 1022⟩ : cpMath ℝ)
        (cpvlerpconst (⟨Real.sqrt, fun x y => x ^ y, 1 / 2 ^ 1022⟩ : cpMath ℝ)
          ⟨0, 0⟩ ⟨3, 4⟩ 10) ⟨0, 0⟩ ≤ 10 ∧
    (cpvdist (⟨Real.sqrt, fun x y => x ^ y, 1 / 2 ^ 1022⟩ : cpMath ℝ) ⟨0, 0⟩ ⟨3, 4⟩ ≤ 10 →
      cpvlerpconst (⟨Real.sqrt, fun x y => x ^ y, 1 / 2 ^ 1022⟩ : cpMath ℝ) ⟨0, 0⟩ ⟨3, 4⟩ 10
        = ⟨3, 4⟩) := by
  have hM : (⟨Real.sqrt, fun x y => x ^ y, 1 / 2 ^ 1022⟩ : cpMath ℝ).Exact :=
    ⟨Real.sqrt_nonneg, fun x hx => Real.mul_self_sqrt hx, by norm_num⟩
  exact ⟨hM, by norm_num, by norm_num,
    cpvclamp_length_le ℝ _ hM ⟨3, 4⟩ ⟨0, 0⟩ ⟨3, 4⟩ 1 10 (by norm_num) (by norm_num)⟩

/-- C17: for all `v1`, `v2`, `cpvlerp(v1, v2, 0) = v1` and `cpvlerp(v1, v2, 1) = v2`. -/
theorem cpvlerp_endpoints (α : Type) [LinearOrderedField α] (v1 v2 : cpVect α) :
    cpvlerp v1 v2 0 = v1 ∧ cpvlerp v1 v2 1 = v2 := by
  cases v1
  cases v2
  constructor <;> simp [cpvlerp, cpvadd, cpvmult, cpv]

/-- C18: `cpvunrotate` is the inverse of `cpvrotate`: for every `v` and every
unit-length `r` (`r . r = 1`), `cpvunrotate(cpvrotate(v, r), r) = v` and
`cpvrotate(cpvunrotate(v, r), r) = v`. -/
theorem cpvunrotate_cpvrotate (α : Type) [LinearOrderedField α] (v r : cpVect α)
    (hr : cpvlengthsq r = 1) :
    cpvunrotate (cpvrotate v r) r = v ∧ cpvrotate (cpvunrotate v r) r = v := by
  unfold cpvlengthsq cpvdot at hr
  cases v with
  | mk x y =>
    have hx : x * (r.x * r.x + r.y * r.y) = x := by rw [hr, mul_one]
    have hy : y * (r.x * r.x + r.y * r.y) = y := by rw [hr, mul_one]
    constructor
    · simp only [cpvunrotate, cpvrotate, cpv, cpVect.mk.injEq]
      constructor
      · linear_combination hx
      · linear_combination hy
    · simp only [cpvunrotate, cpvrotate, cpv, cpVect.mk.injEq]
      constructor
      · linear_combination hx
      · linear_combination hy

/-- Witness for C18: `v = (2, 7)` and the unit vector `r = (3/5, 4/5)`. -/
theorem cpvunrotate_cpvrotate_witness :
    cpvlengthsq (⟨3 / 5, 4 / 5⟩ : cpVect ℚ) = 1 ∧
    cpvunrotate (cpvrotate (⟨2, 7⟩ : cpVect ℚ) ⟨3 / 5, 4 / 5⟩) ⟨3 / 5, 4 / 5⟩ = ⟨2, 7⟩ ∧
    cpvrotate (cpvunrotate (⟨2, 7⟩ : cpVect ℚ) ⟨3 / 5, 4 / 5⟩) ⟨3 / 5, 4 / 5⟩ = ⟨2, 7⟩ :=
  ⟨by norm_num [cpvlengthsq, cpvdot],
    cpvunrotate_cpvrotate ℚ ⟨2, 7⟩ ⟨3 / 5, 4 / 5⟩ (by norm_num [cpvlengthsq, cpvdot])⟩

/-- C19 fails as stated: for `v1 = v2 = (0, 0)` and `dist = -1`, `cpvnear` returns
true although the distance 0 is not less than `-1`. -/
theorem cpvnear_negative_dist :
    cpvnear (⟨0, 0⟩ : cpVect ℚ) ⟨0, 0⟩ (-1) = true ∧
    cpvdist cpMathQ ⟨0, 0⟩ ⟨0, 0⟩ = 0 ∧
    ¬ cpvdist cpMathQ ⟨0, 0⟩ ⟨0, 0⟩ < -1 := by
  have hd : cpvdist cpMathQ ⟨0, 0⟩ ⟨0, 0⟩ = 0 := by
    simp only [cpvdist, cpvlength, cpvsub, cpvdot, cpv, cpMathQ, sub_self, mul_zero, add_zero]
    decide
  refine ⟨?_, hd, ?_⟩
  · norm_num [cpvnear, cpvdistsq, cpvlengthsq, cpvsub, cpvdot, cpv]
  · rw [hd]
    norm_num

/-- C19 (as amended): with an exact square root, `cpvnear(v1, v2, dist)` returns
true if and only if the distance between `v1` and `v2` is less than `|dist|`;
for `dist ≥ 0`, if and only if it is less than `dist`. -/
theorem cpvnear_iff (α : Type) [LinearOrderedField α] (M : cpMath α) (hM : M.Exact)
    (v1 v2 : cpVect α) (dist : α) :
    (cpvnear v1 v2 dist = true ↔ cpvdist M v1 v2 < |dist|) ∧
    (0 ≤ dist → (cpvnear v1 v2 dist = true ↔ cpvdist M v1 v2 < dist)) := by
  have h : cpvnear v1 v2 dist = true ↔ cpvdist M v1 v2 < |dist| := by
    have hiff := cpvlength_lt_iff M hM (cpvsub v1 v2) |dist| (abs_nonneg dist)
    rw [abs_mul_abs_self] at hiff
    rw [cpvdist, hiff]
    simp [cpvnear, cpvdistsq, cpvlengthsq]
  refine ⟨h, fun hd => ?_⟩
  rw [h, abs_of_nonneg hd]

/-- Witness for C19 (as amended) over the reals with the real square root:
`v1 = (0, 0)`, `v2 = (3, 4)`, `dist = 6`. -/
theorem cpvnear_iff_witness :
    (⟨Real.sqrt, fun x y => x ^ y, 1 / 2 ^ 1022⟩ : cpMath ℝ).Exact ∧
    (0 : ℝ) ≤ 6 ∧
    (cpvnear (⟨0, 0⟩ : cpVect ℝ) ⟨3, 4⟩ 6 = true ↔
      cpvdist (⟨Real.sqrt, fun x y => x ^ y, 1 / 2 ^ 1022⟩ : cpMath ℝ) ⟨0, 0⟩ ⟨3, 4⟩ < 6) := by
  have hM : (⟨Real.sqrt, fun x y => x ^ y, 1 / 2 ^ 1022⟩ : cpMath ℝ).Exact :=
    ⟨Real.sqrt_nonneg, fun x hx => Real.mul_self_sqrt hx, by norm_num⟩
  exact ⟨hM, by norm_num, (cpvnear_iff ℝ _ hM ⟨0, 0⟩ ⟨3, 4⟩ 6).2 (by norm_num)⟩

/-- C20: with an exact square root, `dt > 0` and `maxBias ≥ 0`, the bias computed
by pre-step is at most `maxBias` in magnitude: `|bias| ≤ maxBias` after the
ratchet joint's pre-step, and the bias vector has length at most `maxBias`
after the groove joint's pre-step, for every `errorBias`. -/
theorem preStep_bias_le_maxBias (α : Type) [LinearOrderedField α] [FloorRing α]
    (M : cpMath α) (P : cpPrivate α) (hM : M.Exact)
    (sg : cpWorld (cpGrooveJoint α) α) (sr : cpWorld (cpRatchetJoint α) α) (dt : α)
    (_hdt : 0 < dt)
    (hg : 0 ≤ sg.joint.constraint.maxBias) (hr : 0 ≤ sr.joint.constraint.maxBias) :
    |(cpRatchetJoint.preStep M sr dt).joint.bias| ≤ sr.joint.constraint.maxBias ∧
    cpvlength M (cpGrooveJoint.preStep M P sg dt).joint.bias ≤ sg.joint.constraint.maxBias := by
  constructor
  · have hb : ∀ x : α, |cpfclamp x (-sr.joint.constraint.maxBias) sr.joint.constraint.maxBias|
        ≤ sr.joint.constraint.maxBias := fun x =>
      abs_le.mpr ⟨le_cpfclamp x _ _ (by linarith), cpfclamp_le x _ _⟩
    unfold cpRatchetJoint.preStep
    simp only
    split_ifs <;> exact hb _
  · have hb : ∀ x : cpVect α, cpvlength M (cpvclamp M x sg.joint.constraint.maxBias)
        ≤ sg.joint.constraint.maxBias := fun x =>
      cpvlength_le_of_lengthsq_le M hM _ _ hg (cpvclamp_lengthsq_le M hM x _ hg)
    unfold cpGrooveJoint.preStep
    simp only
    split_ifs <;> exact hb _

/-- Witness for C20 over the reals with the real square root: the groove
`(0,0)-(1,0)` with the anchor at `(1/2, 0)` and the engaged ratchet joint
(`ratchet = 1`, latch angle 1 at relative angle 0), `maxBias = 1000`, `dt = 1`. -/
theorem preStep_bias_le_maxBias_witness :
    (⟨Real.sqrt, fun x y => x ^ y, 1 / 2 ^ 1022⟩ : cpMath ℝ).Exact ∧
    (0 : ℝ) < 1 ∧
    (0 : ℝ) ≤ (grooveWorld (⟨Real.sqrt, fun x y => x ^ y, 1 / 2 ^ 1022⟩ : cpMath ℝ)
        ⟨1 / 2, 0⟩).joint.constraint.maxBias ∧
    (0 : ℝ) ≤ (ratchetWorld (cpConstraintEx : cpConstraint ℝ) 0 1 1 0).joint.constraint.maxBias ∧
    |(cpRatchetJoint.preStep (⟨Real.sqrt, fun x y => x ^ y, 1 / 2 ^ 1022⟩ : cpMath ℝ)
        (ratchetWorld (cpConstraintEx : cpConstraint ℝ) 0 1 1 0) 1).joint.bias|
      ≤ (ratchetWorld (cpConstraintEx : cpConstraint ℝ) 0 1 1 0).joint.constraint.maxBias ∧
    cpvlength (⟨Real.sqrt, fun x y => x ^ y, 1 / 2 ^ 1022⟩ : cpMath ℝ)
        (cpGrooveJoint.preStep (⟨Real.sqrt, fun x y => x ^ y, 1 / 2 ^ 1022⟩ : cpMath ℝ)
          cpPrivateStd
          (grooveWorld (⟨Real.sqrt, fun x y => x ^ y, 1 / 2 ^ 1022⟩ : cpMath ℝ) ⟨1 / 2, 0⟩)
          1).joint.bias
      ≤ (grooveWorld (⟨Real.sqrt, fun x y => x ^ y, 1 / 2 ^ 1022⟩ : cpMath ℝ)
          ⟨1 / 2, 0⟩).joint.constraint.maxBias := by
  have hM : (⟨Real.sqrt, fun x y => x ^ y, 1 / 2 ^ 1022⟩ : cpMath ℝ).Exact :=
    ⟨Real.sqrt_nonneg, fun x hx => Real.mul_self_sqrt hx, by norm_num⟩
  have hg : (0 : ℝ) ≤ (grooveWorld (⟨Real.sqrt, fun x y => x ^ y, 1 / 2 ^ 1022⟩ : cpMath ℝ)
        ⟨1 / 2, 0⟩).joint.constraint.maxBias := by
    norm_num [grooveWorld, cpGrooveJoint.cpGrooveJointNew, cpGrooveJoint.cpGrooveJointInit,
      cpConstraintEx]
  have hr : (0 : ℝ)
      ≤ (ratchetWorld (cpConstraintEx : cpConstraint ℝ) 0 1 1 0).joint.constraint.maxBias := by
    norm_num [ratchetWorld, cpRatchetJoint.cpRatchetJointNew, cpRatchetJoint.cpRatchetJointInit,
      cpConstraintEx]
  exact ⟨hM, by norm_num, hg, hr,
    preStep_bias_le_maxBias ℝ _ cpPrivateStd hM _ _ 1 (by norm_num) hg hr⟩

/-- C22, evaluated at two failing inputs: an engaged ratchet joint (`ratchet = 1`,
latch angle 1 at relative angle 0, `dt = 1`, previous `jAcc = 5`) with
`maxBias = 0`, and the same joint with `errorBias = 1`. In both pre-step leaves
`bias = 0` and resets `jAcc` to 0 although `(angle - (b.a - a.a)) * ratchet > 0`. -/
theorem ratchet_preStep_engaged_bias_zero :
    ((ratchetWorld (⟨1000, 1 / 2, 0⟩ : cpConstraint ℚ) 0 1 1 5).joint.ratchet ≠ 0 ∧
     (0 : ℚ) < 1 ∧
     ((ratchetWorld (⟨1000, 1 / 2, 0⟩ : cpConstraint ℚ) 0 1 1 5).joint.angle
        - ((ratchetWorld (⟨1000, 1 / 2, 0⟩ : cpConstraint ℚ) 0 1 1 5).b.a
          - (ratchetWorld (⟨1000, 1 / 2, 0⟩ : cpConstraint ℚ) 0 1 1 5).a.a))
        * (ratchetWorld (⟨1000, 1 / 2, 0⟩ : cpConstraint ℚ) 0 1 1 5).joint.ratchet > 0 ∧
     (cpRatchetJoint.preStep cpMathQ
        (ratchetWorld (⟨1000, 1 / 2, 0⟩ : cpConstraint ℚ) 0 1 1 5) 1).joint.bias = 0 ∧
     (cpRatchetJoint.preStep cpMathQ
        (ratchetWorld (⟨1000, 1 / 2, 0⟩ : cpConstraint ℚ) 0 1 1 5) 1).joint.jAcc = 0) ∧
    ((ratchetWorld (⟨1000, 1, 1000⟩ : cpConstraint ℚ) 0 1 1 5).joint.ratchet ≠ 0 ∧
     ((ratchetWorld (⟨1000, 1, 1000⟩ : cpConstraint ℚ) 0 1 1 5).joint.angle
        - ((ratchetWorld (⟨1000, 1, 1000⟩ : cpConstraint ℚ) 0 1 1 5).b.a
          - (ratchetWorld (⟨1000, 1, 1000⟩ : cpConstraint ℚ) 0 1 1 5).a.a))
        * (ratchetWorld (⟨1000, 1, 1000⟩ : cpConstraint ℚ) 0 1 1 5).joint.ratchet > 0 ∧
     (cpRatchetJoint.preStep cpMathQ
        (ratchetWorld (⟨1000, 1, 1000⟩ : cpConstraint ℚ) 0 1 1 5) 1).joint.bias = 0 ∧
     (cpRatchetJoint.preStep cpMathQ
        (ratchetWorld (⟨1000, 1, 1000⟩ : cpConstraint ℚ) 0 1 1 5) 1).joint.jAcc = 0) := by
  refine ⟨⟨?_, ?_, ?_, ?_, ?_⟩, ⟨?_, ?_, ?_, ?_⟩⟩ <;>
  norm_num [cpRatchetJoint.preStep, ratchetWorld, cpRatchetJoint.cpRatchetJointNew,
    cpRatchetJoint.cpRatchetJointInit, cpRatchetJoint.cpRatchetJointAlloc, cpBodyAt, cpfclamp,
    cpfmin, cpfmax, bias_coef, cpMathQ, cpffloor]

/-- C23: for a ratchet joint with `ratchet ≠ 0` (of either sign), when pre-step
takes the tooth-passed branch the new latch angle satisfies:
`(angle - phase) / ratchet` is an integer, and
`0 ≤ (delta - angle) / ratchet < 1` with `delta = b.a - a.a`; hence
`(angle - delta) * ratchet ≤ 0`: the joint is not engaged with respect to its
new latch angle. -/
theorem ratchet_preStep_latch_tooth (α : Type) [LinearOrderedField α] [FloorRing α]
    (M : cpMath α) (s : cpWorld (cpRatchetJoint α) α) (dt : α)
    (hr : s.joint.ratchet ≠ 0)
    (hpass : (s.joint.angle - (s.b.a - s.a.a)) * s.joint.ratchet ≤ 0) :
    (∃ k : ℤ, ((cpRatchetJoint.preStep M s dt).joint.angle - s.joint.phase) / s.joint.ratchet
        = (k : α)) ∧
    0 ≤ ((s.b.a - s.a.a) - (cpRatchetJoint.preStep M s dt).joint.angle) / s.joint.ratchet ∧
    ((s.b.a - s.a.a) - (cpRatchetJoint.preStep M s dt).joint.angle) / s.joint.ratchet < 1 ∧
    ((cpRatchetJoint.preStep M s dt).joint.angle - (s.b.a - s.a.a)) * s.joint.ratchet ≤ 0 := by
  have ha := ratchet_preStep_angle_passed M s dt hpass
  have hq : ((s.b.a - s.a.a) - (cpRatchetJoint.preStep M s dt).joint.angle) / s.joint.ratchet
      = Int.fract (((s.b.a - s.a.a) - s.joint.phase) / s.joint.ratchet) := by
    rw [ha, cpffloor, Int.fract]
    field_simp
    ring
  refine ⟨⟨⌊((s.b.a - s.a.a) - s.joint.phase) / s.joint.ratchet⌋, ?_⟩, ?_, ?_, ?_⟩
  · rw [ha, cpffloor]
    field_simp
  · rw [hq]
    exact Int.fract_nonneg _
  · rw [hq]
    exact Int.fract_lt_one _
  · rw [ha]
    exact floor_latch_not_engaged _ _ _

/-- Witness for C23 with a negative ratchet: a joint made with `phase = 1/4`,
`ratchet = -1` between bodies at relative angle 0 (latch angle 0), `dt = 1`. -/
theorem ratchet_preStep_latch_tooth_witness :
    (ratchetWorld (cpConstraintEx : cpConstraint ℚ) (1 / 4) (-1) 0 0).joint.ratchet ≠ 0 ∧
    ((ratchetWorld (cpConstraintEx : cpConstraint ℚ) (1 / 4) (-1) 0 0).joint.angle
        - ((ratchetWorld (cpConstraintEx : cpConstraint ℚ) (1 / 4) (-1) 0 0).b.a
          - (ratchetWorld (cpConstraintEx : cpConstraint ℚ) (1 / 4) (-1) 0 0).a.a))
        * (ratchetWorld (cpConstraintEx : cpConstraint ℚ) (1 / 4) (-1) 0 0).joint.ratchet ≤ 0 ∧
    (∃ k : ℤ,
      ((cpRatchetJoint.preStep cpMathQ
          (ratchetWorld (cpConstraintEx : cpConstraint ℚ) (1 / 4) (-1) 0 0) 1).joint.angle
        - (ratchetWorld (cpConstraintEx : cpConstraint ℚ) (1 / 4) (-1) 0 0).joint.phase)
        / (ratchetWorld (cpConstraintEx : cpConstraint ℚ) (1 / 4) (-1) 0 0).joint.ratchet
        = (k : ℚ)) ∧
    0 ≤ (((ratchetWorld (cpConstraintEx : cpConstraint ℚ) (1 / 4) (-1) 0 0).b.a
          - (ratchetWorld (cpConstraintEx : cpConstraint ℚ) (1 / 4) (-1) 0 0).a.a)
        - (cpRatchetJoint.preStep cpMathQ
            (ratchetWorld (cpConstraintEx : cpConstraint ℚ) (1 / 4) (-1) 0 0) 1).joint.angle)
        / (ratchetWorld (cpConstraintEx : cpConstraint ℚ) (1 / 4) (-1) 0 0).joint.ratchet ∧
    (((ratchetWorld (cpConstraintEx : cpConstraint ℚ) (1 / 4) (-1) 0 0).b.a
          - (ratchetWorld (cpConstraintEx : cpConstraint ℚ) (1 / 4) (-1) 0 0).a.a)
        - (cpRatchetJoint.preStep cpMathQ
            (ratchetWorld (cpConstraintEx : cpConstraint ℚ) (1 / 4) (-1) 0 0) 1).joint.angle)
        / (ratchetWorld (cpConstraintEx : cpConstraint ℚ) (1 / 4) (-1) 0 0).joint.ratchet < 1 ∧
    ((cpRatchetJoint.preStep cpMathQ
          (ratchetWorld (cpConstraintEx : cpConstraint ℚ) (1 / 4) (-1) 0 0) 1).joint.angle
        - ((ratchetWorld (cpConstraintEx : cpConstraint ℚ) (1 / 4) (-1) 0 0).b.a
          - (ratchetWorld (cpConstraintEx : cpConstraint ℚ) (1 / 4) (-1) 0 0).a.a))
        * (ratchetWorld (cpConstraintEx : cpConstraint ℚ) (1 / 4) (-1) 0 0).joint.ratchet ≤ 0 :=
  ⟨by norm_num [ratchetWorld, cpRatchetJoint.cpRatchetJointNew,
      cpRatchetJoint.cpRatchetJointInit],
   by norm_num [ratchetWorld, cpRatchetJoint.cpRatchetJointNew,
      cpRatchetJoint.cpRatchetJointInit, cpBodyAt],
   ratchet_preStep_latch_tooth ℚ cpMathQ (ratchetWorld cpConstraintEx (1 / 4) (-1) 0 0) 1
     (by norm_num [ratchetWorld, cpRatchetJoint.cpRatchetJointNew,
       cpRatchetJoint.cpRatchetJointInit])
     (by norm_num [ratchetWorld, cpRatchetJoint.cpRatchetJointNew,
       cpRatchetJoint.cpRatchetJointInit, cpBodyAt])⟩

/-- C24: for a groove joint with clamp = 0 and non-zero stored world axis
`grv_tn`, after apply-impulse the accumulated impulse is collinear with
`grv_tn`: `cpvcross(jAcc, grv_tn) = 0`, for every previous `jAcc`, tensor `k`,
bias and body velocities (all part of the state `s`); apply-impulse leaves
`grv_tn` itself unchanged. -/
theorem groove_applyImpulse_jAcc_collinear (α : Type) [LinearOrderedField α]
    (M : cpMath α) (P : cpPrivate α) (s : cpWorld (cpGrooveJoint α) α) (dt : α)
    (hclamp : s.joint.clamp = 0) (_hn : s.joint.grv_tn ≠ cpvzero) :
    cpvcross (cpGrooveJoint.applyImpulse M P s dt).joint.jAcc s.joint.grv_tn = 0 ∧
    (cpGrooveJoint.applyImpulse M P s dt).joint.grv_tn = s.joint.grv_tn := by
  obtain ⟨t, ht⟩ := grooveConstrain_clamp_zero M s.joint
    (cpvadd s.joint.jAcc (cpMat2x2Transform s.joint.k
      (cpvsub s.joint.bias (P.relative_velocity s.a s.b s.joint.r1 s.joint.r2)))) dt hclamp
  have hj : (cpGrooveJoint.applyImpulse M P s dt).joint.jAcc = cpvmult s.joint.grv_tn t := ht
  refine ⟨?_, rfl⟩
  rw [hj]
  exact cpvcross_cpvmult_self _ _

/-- Witness for C24: the groove `(0,0)-(1,0)` after pre-step with the anchor at
`(1/2, 0)` (clamp = 0, `grv_tn = (0, 1/(1 + CPFLOAT_MIN))`), `dt = 1`. -/
theorem groove_applyImpulse_jAcc_collinear_witness :
    (cpGrooveJoint.preStep cpMathQ cpPrivateStd
      (grooveWorld cpMathQ ⟨1 / 2, 0⟩) 1).joint.clamp = 0 ∧
    (cpGrooveJoint.preStep cpMathQ cpPrivateStd
      (grooveWorld cpMathQ ⟨1 / 2, 0⟩) 1).joint.grv_tn ≠ cpvzero ∧
    cpvcross
      (cpGrooveJoint.applyImpulse cpMathQ cpPrivateStd
        (cpGrooveJoint.preStep cpMathQ cpPrivateStd (grooveWorld cpMathQ ⟨1 / 2, 0⟩) 1)
        1).joint.jAcc
      (cpGrooveJoint.preStep cpMathQ cpPrivateStd
        (grooveWorld cpMathQ ⟨1 / 2, 0⟩) 1).joint.grv_tn = 0 ∧
    (cpGrooveJoint.applyImpulse cpMathQ cpPrivateStd
        (cpGrooveJoint.preStep cpMathQ cpPrivateStd (grooveWorld cpMathQ ⟨1 / 2, 0⟩) 1)
        1).joint.grv_tn
      = (cpGrooveJoint.preStep cpMathQ cpPrivateStd
          (grooveWorld cpMathQ ⟨1 / 2, 0⟩) 1).joint.grv_tn := by
  have h1 : (cpGrooveJoint.preStep cpMathQ cpPrivateStd
      (grooveWorld cpMathQ ⟨1 / 2, 0⟩) 1).joint.clamp = 0 := by
    norm_num [cpGrooveJoint.preStep, grooveWorld, cpGrooveJoint.cpGrooveJointNew,
      cpGrooveJoint.cpGrooveJointInit, cpGrooveJoint.cpGrooveJointAlloc, cpBodyAt,
      cpTransformPoint, cpTransformVect, cpvperp, cpvnormalize, cpvlength, cpvmult, cpvsub,
      cpvadd, cpvdot, cpvcross, cpv, cpvzero, cpMathQ, rat_sqrt_one]
  have h2 : (cpGrooveJoint.preStep cpMathQ cpPrivateStd
      (grooveWorld cpMathQ ⟨1 / 2, 0⟩) 1).joint.grv_tn ≠ cpvzero := by
    rw [groove_preStep_grv_tn]
    norm_num [grooveWorld, cpGrooveJoint.cpGrooveJointNew,
      cpGrooveJoint.cpGrooveJointInit, cpGrooveJoint.cpGrooveJointAlloc, cpBodyAt,
      cpTransformVect, cpvperp, cpvnormalize, cpvlength, cpvmult, cpvsub,
      cpvdot, cpv, cpvzero, cpMathQ, rat_sqrt_one]
  exact ⟨h1, h2, groove_applyImpulse_jAcc_collinear ℚ cpMathQ cpPrivateStd
    (cpGrooveJoint.preStep cpMathQ cpPrivateStd (grooveWorld cpMathQ ⟨1 / 2, 0⟩) 1) 1 h1 h2⟩

/-- C25: groove normal invariant. After `cpGrooveJointInit` and any sequence of
`cpGrooveJointSetGrooveA`, `cpGrooveJointSetGrooveB`, `cpGrooveJointSetAnchorB`
calls, `grv_n = cpvperp(cpvnormalize(grv_b - grv_a))` and
`cpvdot(grv_n, grv_b - grv_a) = 0`; each getter returns the value just set by
its setter, and a setter leaves the other two geometry fields (and, for
`SetAnchorB`, the normal) unchanged. -/
theorem groove_normal_invariant (α : Type) [LinearOrderedField α] (M : cpMath α)
    (joint : cpGrooveJoint α) (c : cpConstraint α) (groove_a groove_b anchorB : cpVect α)
    (calls : List (GrooveSetterCall α)) (g : cpGrooveJoint α) (value : cpVect α) :
    ((calls.foldl (GrooveSetterCall.run M)
        (cpGrooveJoint.cpGrooveJointInit M joint c groove_a groove_b anchorB)).grv_n
      = cpvperp (cpvnormalize M (cpvsub
          (calls.foldl (GrooveSetterCall.run M)
            (cpGrooveJoint.cpGrooveJointInit M joint c groove_a groove_b anchorB)).grv_b
          (calls.foldl (GrooveSetterCall.run M)
            (cpGrooveJoint.cpGrooveJointInit M joint c groove_a groove_b anchorB)).grv_a)) ∧
     cpvdot
        (calls.foldl (GrooveSetterCall.run M)
          (cpGrooveJoint.cpGrooveJointInit M joint c groove_a groove_b anchorB)).grv_n
        (cpvsub
          (calls.foldl (GrooveSetterCall.run M)
            (cpGrooveJoint.cpGrooveJointInit M joint c groove_a groove_b anchorB)).grv_b
          (calls.foldl (GrooveSetterCall.run M)
            (cpGrooveJoint.cpGrooveJointInit M joint c groove_a groove_b anchorB)).grv_a) = 0) ∧
    (cpGrooveJoint.cpGrooveJointGetGrooveA (cpGrooveJoint.cpGrooveJointSetGrooveA M g value)
        = value ∧
     cpGrooveJoint.cpGrooveJointGetGrooveB (cpGrooveJoint.cpGrooveJointSetGrooveA M g value)
        = cpGrooveJoint.cpGrooveJointGetGrooveB g ∧
     cpGrooveJoint.cpGrooveJointGetAnchorB (cpGrooveJoint.cpGrooveJointSetGrooveA M g value)
        = cpGrooveJoint.cpGrooveJointGetAnchorB g) ∧
    (cpGrooveJoint.cpGrooveJointGetGrooveB (cpGrooveJoint.cpGrooveJointSetGrooveB M g value)
        = value ∧
     cpGrooveJoint.cpGrooveJointGetGrooveA (cpGrooveJoint.cpGrooveJointSetGrooveB M g value)
        = cpGrooveJoint.cpGrooveJointGetGrooveA g ∧
     cpGrooveJoint.cpGrooveJointGetAnchorB (cpGrooveJoint.cpGrooveJointSetGrooveB M g value)
        = cpGrooveJoint.cpGrooveJointGetAnchorB g) ∧
    (cpGrooveJoint.cpGrooveJointGetAnchorB (cpGrooveJoint.cpGrooveJointSetAnchorB g value)
        = value ∧
     cpGrooveJoint.cpGrooveJointGetGrooveA (cpGrooveJoint.cpGrooveJointSetAnchorB g value)
        = cpGrooveJoint.cpGrooveJointGetGrooveA g ∧
     cpGrooveJoint.cpGrooveJointGetGrooveB (cpGrooveJoint.cpGrooveJointSetAnchorB g value)
        = cpGrooveJoint.cpGrooveJointGetGrooveB g ∧
     (cpGrooveJoint.cpGrooveJointSetAnchorB g value).grv_n = g.grv_n) := by
  have hinv : GrooveNormalOk M (calls.foldl (GrooveSetterCall.run M)
      (cpGrooveJoint.cpGrooveJointInit M joint c groove_a groove_b anchorB)) :=
    grooveSetter_foldl_normal M calls _ rfl
  refine ⟨⟨hinv, ?_⟩, ⟨rfl, rfl, rfl⟩, ⟨rfl, rfl, rfl⟩, ⟨rfl, rfl, rfl, rfl⟩⟩
  rw [hinv, cpvnormalize]
  exact cpvdot_cpvperp_cpvmult _ _

/-- C26: the ratchet joint conserves angular momentum. For two bodies with
non-zero inverse moments, apply-impulse and apply-cached-impulse leave
`a.w / a.i_inv + b.w / b.i_inv` unchanged; both change no body field other than
`w`; and a body with `i_inv = 0` keeps its angular velocity. -/
theorem ratchet_angular_momentum (α : Type) [LinearOrderedField α]
    (s : cpWorld (cpRatchetJoint α) α) (dt dt_coef : α) :
    (s.a.i_inv ≠ 0 → s.b.i_inv ≠ 0 →
      (cpRatchetJoint.applyImpulse s dt).a.w / s.a.i_inv
          + (cpRatchetJoint.applyImpulse s dt).b.w / s.b.i_inv
        = s.a.w / s.a.i_inv + s.b.w / s.b.i_inv ∧
      (cpRatchetJoint.applyCachedImpulse s dt_coef).a.w / s.a.i_inv
          + (cpRatchetJoint.applyCachedImpulse s dt_coef).b.w / s.b.i_inv
        = s.a.w / s.a.i_inv + s.b.w / s.b.i_inv) ∧
    ((cpRatchetJoint.applyImpulse s dt).a
        = { s.a with w := (cpRatchetJoint.applyImpulse s dt).a.w } ∧
     (cpRatchetJoint.applyImpulse s dt).b
        = { s.b with w := (cpRatchetJoint.applyImpulse s dt).b.w } ∧
     (cpRatchetJoint.applyCachedImpulse s dt_coef).a
        = { s.a with w := (cpRatchetJoint.applyCachedImpulse s dt_coef).a.w } ∧
     (cpRatchetJoint.applyCachedImpulse s dt_coef).b
        = { s.b with w := (cpRatchetJoint.applyCachedImpulse s dt_coef).b.w }) ∧
    (s.a.i_inv = 0 →
      (cpRatchetJoint.applyImpulse s dt).a.w = s.a.w ∧
      (cpRatchetJoint.applyCachedImpulse s dt_coef).a.w = s.a.w) ∧
    (s.b.i_inv = 0 →
      (cpRatchetJoint.applyImpulse s dt).b.w = s.b.w ∧
      (cpRatchetJoint.applyCachedImpulse s dt_coef).b.w = s.b.w) := by
  obtain ⟨ha, hb⟩ := ratchet_applyImpulse_step s dt
  have haw : (cpRatchetJoint.applyImpulse s dt).a.w
      = s.a.w + s.joint.jAcc * s.a.i_inv
        - (cpRatchetJoint.applyImpulse s dt).joint.jAcc * s.a.i_inv := by
    rw [ha]
  have hbw : (cpRatchetJoint.applyImpulse s dt).b.w
      = s.b.w - s.joint.jAcc * s.b.i_inv
        + (cpRatchetJoint.applyImpulse s dt).joint.jAcc * s.b.i_inv := by
    rw [hb]
  have hca : (cpRatchetJoint.applyCachedImpulse s dt_coef).a.w
      = s.a.w - s.joint.jAcc * dt_coef * s.a.i_inv := rfl
  have hcb : (cpRatchetJoint.applyCachedImpulse s dt_coef).b.w
      = s.b.w + s.joint.jAcc * dt_coef * s.b.i_inv := rfl
  refine ⟨fun h1 h2 => ⟨?_, ?_⟩, ⟨?_, ?_, rfl, rfl⟩, fun h => ⟨?_, ?_⟩, fun h => ⟨?_, ?_⟩⟩
  · rw [haw, hbw]
    field_simp
    ring
  · rw [hca, hcb]
    field_simp
    ring
  · rw [ha]
  · rw [hb]
  · rw [haw, h]
    ring
  · rw [hca, h]
    ring
  · rw [hbw, h]
    ring
  · rw [hcb, h]
    ring

/-- Witness for C26: the engaged joint (`ratchet = 1`, latch angle 1 at relative
angle 0, both `i_inv = 1`) after pre-step, `dt = 1`, `dt_coef = 2`; and the same
joint with body A static (`i_inv = 0`). -/
theorem ratchet_angular_momentum_witness :
    ((cpRatchetJoint.preStep cpMathQ (ratchetWorld cpConstraintEx 0 1 1 0) 1).a.i_inv ≠ 0 ∧
     (cpRatchetJoint.preStep cpMathQ (ratchetWorld cpConstraintEx 0 1 1 0) 1).b.i_inv ≠ 0 ∧
     (cpRatchetJoint.applyImpulse
          (cpRatchetJoint.preStep cpMathQ (ratchetWorld cpConstraintEx 0 1 1 0) 1) 1).a.w
          / (cpRatchetJoint.preStep cpMathQ (ratchetWorld cpConstraintEx 0 1 1 0) 1).a.i_inv
        + (cpRatchetJoint.applyImpulse
            (cpRatchetJoint.preStep cpMathQ (ratchetWorld cpConstraintEx 0 1 1 0) 1) 1).b.w
          / (cpRatchetJoint.preStep cpMathQ (ratchetWorld cpConstraintEx 0 1 1 0) 1).b.i_inv
       = (cpRatchetJoint.preStep cpMathQ (ratchetWorld cpConstraintEx 0 1 1 0) 1).a.w
          / (cpRatchetJoint.preStep cpMathQ (ratchetWorld cpConstraintEx 0 1 1 0) 1).a.i_inv
        + (cpRatchetJoint.preStep cpMathQ (ratchetWorld cpConstraintEx 0 1 1 0) 1).b.w
          / (cpRatchetJoint.preStep cpMathQ (ratchetWorld cpConstraintEx 0 1 1 0) 1).b.i_inv ∧
     (cpRatchetJoint.applyCachedImpulse
          (cpRatchetJoint.preStep cpMathQ (ratchetWorld cpConstraintEx 0 1 1 0) 1) 2).a.w
          / (cpRatchetJoint.preStep cpMathQ (ratchetWorld cpConstraintEx 0 1 1 0) 1).a.i_inv
        + (cpRatchetJoint.applyCachedImpulse
            (cpRatchetJoint.preStep cpMathQ (ratchetWorld cpConstraintEx 0 1 1 0) 1) 2).b.w
          / (cpRatchetJoint.preStep cpMathQ (ratchetWorld cpConstraintEx 0 1 1 0) 1).b.i_inv
       = (cpRatchetJoint.preStep cpMathQ (ratchetWorld cpConstraintEx 0 1 1 0) 1).a.w
          / (cpRatchetJoint.preStep cpMathQ (ratchetWorld cpConstraintEx 0 1 1 0) 1).a.i_inv
        + (cpRatchetJoint.preStep cpMathQ (ratchetWorld cpConstraintEx 0 1 1 0) 1).b.w
          / (cpRatchetJoint.preStep cpMathQ (ratchetWorld cpConstraintEx 0 1 1 0) 1).b.i_inv) ∧
    (({ (cpRatchetJoint.preStep cpMathQ (ratchetWorld cpConstraintEx 0 1 1 0) 1) with
          a := { cpBodyAt ⟨0, 0⟩ with m_inv := 0, i_inv := 0 } }
        : cpWorld (cpRatchetJoint ℚ) ℚ).a.i_inv = 0 ∧
     (cpRatchetJoint.applyImpulse
        ({ (cpRatchetJoint.preStep cpMathQ (ratchetWorld cpConstraintEx 0 1 1 0) 1) with
            a := { cpBodyAt ⟨0, 0⟩ with m_inv := 0, i_inv := 0 } }
          : cpWorld (cpRatchetJoint ℚ) ℚ) 1).a.w
       = ({ (cpRatchetJoint.preStep cpMathQ (ratchetWorld cpConstraintEx 0 1 1 0) 1) with
            a := { cpBodyAt ⟨0, 0⟩ with m_inv := 0, i_inv := 0 } }
          : cpWorld (cpRatchetJoint ℚ) ℚ).a.w ∧
     (cpRatchetJoint.applyCachedImpulse
        ({ (cpRatchetJoint.preStep cpMathQ (ratchetWorld cpConstraintEx 0 1 1 0) 1) with
            a := { cpBodyAt ⟨0, 0⟩ with m_inv := 0, i_inv := 0 } }
          : cpWorld (cpRatchetJoint ℚ) ℚ) 2).a.w
       = ({ (cpRatchetJoint.preStep cpMathQ (ratchetWorld cpConstraintEx 0 1 1 0) 1) with
            a := { cpBodyAt ⟨0, 0⟩ with m_inv := 0, i_inv := 0 } }
          : cpWorld (cpRatchetJoint ℚ) ℚ).a.w) := by
  have h1 : (cpRatchetJoint.preStep cpMathQ
      (ratchetWorld cpConstraintEx 0 1 1 0) 1).a.i_inv ≠ 0 := by
    norm_num [cpRatchetJoint.preStep, ratchetWorld, cpBodyAt]
  have h2 : (cpRatchetJoint.preStep cpMathQ
      (ratchetWorld cpConstraintEx 0 1 1 0) 1).b.i_inv ≠ 0 := by
    norm_num [cpRatchetJoint.preStep, ratchetWorld, cpBodyAt]
  have h3 : ({ (cpRatchetJoint.preStep cpMathQ (ratchetWorld cpConstraintEx 0 1 1 0) 1) with
          a := { cpBodyAt ⟨0, 0⟩ with m_inv := 0, i_inv := 0 } }
        : cpWorld (cpRatchetJoint ℚ) ℚ).a.i_inv = 0 := rfl
  exact ⟨⟨h1, h2, (ratchet_angular_momentum ℚ
      (cpRatchetJoint.preStep cpMathQ (ratchetWorld cpConstraintEx 0 1 1 0) 1) 1 2).1 h1 h2⟩,
    ⟨h3, (ratchet_angular_momentum ℚ
      { (cpRatchetJoint.preStep cpMathQ (ratchetWorld cpConstraintEx 0 1 1 0) 1) with
        a := { cpBodyAt ⟨0, 0⟩ with m_inv := 0, i_inv := 0 } } 1 2).2.2.1 h3⟩⟩


end Verification

end Chipmunk
